import Mathlib

/-!
Shallow embedding of the Duo party-room server (server `index.js`,
socket event handlers operating on the in-memory room registry).

Modelling conventions:
* JS `null`/`undefined` string fields become `Option String`
  (the `clientId` field, only ever consumed through truthiness checks,
  is modelled as a `String` with `""` standing for `null`).
* `Math.random()`-driven choices (the fresh word drawn by
  `randomWord()`, the wheel index, generated ids, `Date.now()`)
  are passed in as explicit parameters of the handlers.
* Calls to the external music provider (`fetch` inside
  `spotifyHostFetch` / `refreshSpotifySession`) are modelled by an
  oracle value `SpotifyOutcome` describing what the external world
  did: the whole `ensure session + fetch` chain either throws
  (possibly after a successful token refresh was stored) or succeeds
  (possibly after a refresh).  The stored-session update is applied
  to the room exactly where the source mutates `room.music.hostSession`.
* Strokes and track payloads whose contents the server never inspects
  are carried as opaque strings / records of strings.
-/

namespace Duo

/-- Server constant `MAX_SCORE = 5`. -/
def MAX_SCORE : Nat := 5

/-- Server constant `MAX_WRONG_GUESSES = 5`. -/
def MAX_WRONG_GUESSES : Nat := 5

/-- Server constant `MAX_LOBBY_NOTES = 50`. -/
def MAX_LOBBY_NOTES : Nat := 50

/-- Server constant `MAX_MUSIC_SUGGESTIONS = 100`. -/
def MAX_MUSIC_SUGGESTIONS : Nat := 100

/-- Server constant `MAX_MUSIC_QUEUE = 200`. -/
def MAX_MUSIC_QUEUE : Nat := 200

/-- Server constant `DEFAULT_WHEEL_OPTIONS`. -/
def DEFAULT_WHEEL_OPTIONS : List String :=
  ["Movie night pick", "Coffee date challenge", "Sing one chorus", "Tell a fun memory"]

/-- A member of a room (`room.users[i]` in the source). -/
structure User where
  userKey : String
  socketId : Option String
  name : String
  color : String
  status : String
  points : Nat
  currentGame : String
  deriving Repr, DecidableEq

/-- The drawing / wheel game state (`room.game`). -/
structure Game where
  drawerId : Option String
  guesserId : Option String
  drawerUserKey : Option String
  guesserUserKey : Option String
  currentWord : Option String
  strokes : List String
  winnerUserKey : Option String
  wrongGuessCount : Nat
  wheelTurnUserKey : Option String
  wheelOptions : List String
  deriving Repr, DecidableEq

/-- An opaque Spotify token bundle (`room.music.hostSession`). -/
structure Session where
  accessToken : String
  refreshToken : String
  expiresAt : Int
  deriving Repr, DecidableEq

/-- A pending suggestion entry (`room.music.suggestions[i]`). -/
structure Suggestion where
  suggestionId : String
  id : String
  uri : String
  name : String
  artists : String
  albumImage : String
  suggestedByUserKey : String
  suggestedByName : String
  createdAt : Int
  deriving Repr, DecidableEq

/-- An accepted queue entry (`room.music.queue[i]`). -/
structure QueueItem where
  queueId : String
  id : String
  uri : String
  name : String
  artists : String
  albumImage : String
  suggestedByUserKey : String
  suggestedByName : String
  acceptedByUserKey : String
  acceptedAt : Int
  deriving Repr, DecidableEq

/-- The music sub-state (`room.music`).  `clientId = ""` models JS `null`
(the field is only ever read through truthiness checks). -/
structure Music where
  hostUserKey : Option String
  hostSocketId : Option String
  hostName : Option String
  hostDeviceId : Option String
  hasHostSession : Bool
  clientId : String
  hostSession : Option Session
  suggestions : List Suggestion
  queue : List QueueItem
  deriving Repr, DecidableEq

/-- A lobby sticky note (`room.lobbyNotes[i]`). -/
structure Note where
  id : String
  userKey : String
  name : String
  color : String
  text : String
  createdAt : Int
  deriving Repr, DecidableEq

/-- One room of the registry (`rooms[roomId]`). -/
structure Room where
  roomId : String
  pin : String
  users : List User
  game : Game
  music : Music
  lobbyNotes : List Note
  deriving Repr, DecidableEq

/-- The raw track object a client sends with `MUSIC_SUGGEST_TRACK` /
`MUSIC_ADD_TO_QUEUE` (each JS field coerced by `String(x || "")`). -/
structure TrackInput where
  id : String
  uri : String
  name : String
  artists : String
  albumImage : String
  deriving Repr, DecidableEq

/-- The payload of `SPOTIFY_HOST_SESSION_UPDATE` (`session` field). -/
structure SessionInput where
  accessToken : String
  refreshToken : String
  expiresAt : Int
  deriving Repr, DecidableEq

/-- Leading-whitespace strip on a char list (structural recursion, so
concrete instances reduce in the kernel). -/
def trimLeftL : List Char → List Char
  | [] => []
  | c :: cs => if c.isWhitespace then trimLeftL cs else c :: cs

/-- Whitespace strip on both ends of a char list. -/
def trimL (l : List Char) : List Char :=
  (trimLeftL (trimLeftL l).reverse).reverse

/-- JS `String.prototype.trim()`. -/
def jsTrim (s : String) : String := ⟨trimL s.data⟩

/-- JS `String.prototype.toLowerCase()` (per-character fold). -/
def jsToLower (s : String) : String := ⟨s.data.map Char.toLower⟩

/-- JS `String.prototype.slice(0, n)`. -/
def jsTake (n : Nat) (s : String) : String := ⟨s.data.take n⟩

/-- Char-list prefix test (structural recursion). -/
def isPrefixL : List Char → List Char → Bool
  | [], _ => true
  | _ :: _, [] => false
  | c :: cs, d :: ds => c == d && isPrefixL cs ds

/-- JS `s.startsWith(pre)`. -/
def jsStartsWith (s pre : String) : Bool := isPrefixL pre.data s.data

/-- `normalizeWheelOptions` inner loop: trim/truncate each entry, drop
empties, case-insensitively deduplicate keeping first-seen order, stop
once 24 have been collected. -/
def normalizeWheelOptionsGo (seen : List String) (acc : List String) :
    List String → List String
  | [] => acc.reverse
  | raw :: rest =>
    let value := jsTake 80 (jsTrim raw)
    if value = "" then normalizeWheelOptionsGo seen acc rest
    else
      let key := jsToLower value
      if seen.contains key then normalizeWheelOptionsGo seen acc rest
      else
        let acc' := value :: acc
        if acc'.length ≥ 24 then acc'.reverse
        else normalizeWheelOptionsGo (key :: seen) acc' rest

/-- Source `normalizeWheelOptions`. -/
def normalizeWheelOptions (options : List String) : List String :=
  normalizeWheelOptionsGo [] [] options

/-- Source `normalizeLobbyNote`: trim then truncate to 220. -/
def normalizeLobbyNote (text : String) : String :=
  jsTake 220 (jsTrim text)

/-- Source `normalizeTrackCandidate`: require a non-empty name and a
non-empty `spotify:track:`-prefixed uri, truncate the other fields. -/
def normalizeTrackCandidate (track : TrackInput) : Option TrackInput :=
  let uri := jsTrim track.uri
  let name := jsTake 160 (jsTrim track.name)
  if uri = "" ∨ name = "" then none
  else if ¬ jsStartsWith uri "spotify:track:" then none
  else some
    { id := jsTake 120 (jsTrim track.id)
      uri := uri
      name := name
      artists := jsTake 220 (jsTrim track.artists)
      albumImage := jsTake 500 (jsTrim track.albumImage) }

/-- Update the first element satisfying `p` (JS `find` + in-place
mutation pattern). -/
def updateFirst (p : User → Bool) (f : User → User) : List User → List User
  | [] => []
  | u :: us => if p u then f u :: us else u :: updateFirst p f us

/-- Source `syncStatuses`: recompute each member's derived status label. -/
def syncStatuses (r : Room) : Room :=
  { r with users := r.users.map fun u =>
      if r.game.drawerUserKey = some u.userKey then
        { u with status := if u.socketId.isSome then "DRAWING" else "DISCONNECTED" }
      else if r.game.guesserUserKey = some u.userKey then
        { u with status := if u.socketId.isSome then "GUESSING" else "DISCONNECTED" }
      else
        { u with status := if u.socketId.isSome then "WAITING" else "DISCONNECTED" } }

/-- Source `rotateRoles`; `w` is the fresh `randomWord()` draw. -/
def rotateRoles (w : String) (r : Room) : Room :=
  let nextDrawerUserKey := r.game.guesserUserKey
  let nextGuesserUserKey := r.game.drawerUserKey
  let nextDrawer := r.users.find? fun u => nextDrawerUserKey == some u.userKey
  let nextGuesser := r.users.find? fun u => nextGuesserUserKey == some u.userKey
  syncStatuses
    { r with game :=
      { r.game with
        drawerUserKey := nextDrawerUserKey
        guesserUserKey := nextGuesserUserKey
        drawerId := nextDrawer.bind User.socketId
        guesserId := nextGuesser.bind User.socketId
        currentWord := some w
        strokes := []
        winnerUserKey := none
        wrongGuessCount := 0 } }

/-- Source `startRound`; `w` is the fresh `randomWord()` draw.  With
fewer than two connected users all round state is cleared (note: the
source does not reset `wrongGuessCount` in that branch). -/
def startRound (w : String) (r : Room) : Room :=
  let connectedUsers := r.users.filter fun u => u.socketId.isSome
  match connectedUsers with
  | u1 :: u2 :: _ =>
    syncStatuses
      { r with game :=
        { r.game with
          drawerId := u1.socketId
          guesserId := u2.socketId
          drawerUserKey := some u1.userKey
          guesserUserKey := some u2.userKey
          currentWord := some w
          strokes := []
          winnerUserKey := none
          wrongGuessCount := 0 } }
  | _ =>
    syncStatuses
      { r with game :=
        { r.game with
          drawerId := none
          guesserId := none
          drawerUserKey := none
          guesserUserKey := none
          currentWord := none
          strokes := []
          winnerUserKey := none } }

/-- Source `syncWheelTurn`: the turn pointer must reference a connected
member on the WHEEL tab; otherwise it is reassigned to the first such
member, or cleared when none exists. -/
def syncWheelTurn (r : Room) : Room :=
  let wheelUsers := r.users.filter fun u =>
    u.socketId.isSome && u.currentGame == "WHEEL"
  match wheelUsers with
  | [] => { r with game := { r.game with wheelTurnUserKey := none } }
  | u0 :: _ =>
    if wheelUsers.any (fun u => r.game.wheelTurnUserKey == some u.userKey) then r
    else { r with game := { r.game with wheelTurnUserKey := some u0.userKey } }

/-- The room built for the first joiner (shared by `CREATE_ROOM` and the
implicit-create branch of `JOIN_ROOM`). -/
def initialRoom (roomId pin userKey sid name color : String) : Room :=
  { roomId := roomId
    pin := pin
    users := [{ userKey := userKey, socketId := some sid, name := name,
                color := color, status := "WAITING", points := 0,
                currentGame := "DRAWING" }]
    game :=
      { drawerId := none, guesserId := none, drawerUserKey := none,
        guesserUserKey := none, currentWord := none, strokes := [],
        winnerUserKey := none, wrongGuessCount := 0,
        wheelTurnUserKey := none, wheelOptions := DEFAULT_WHEEL_OPTIONS }
    music :=
      { hostUserKey := none, hostSocketId := none, hostName := none,
        hostDeviceId := none, hasHostSession := false, clientId := "",
        hostSession := none, suggestions := [], queue := [] }
    lobbyNotes := [] }

/-- Outcome of a `JOIN_ROOM` event. -/
inductive JoinOutcome where
  | created
  | invalidPin
  | roomFull
  | joined
  deriving Repr, DecidableEq

/-- The start-game-if-ready branch of the `JOIN_ROOM` handler: when the
room has exactly two members and no drawer is assigned, the two members
become drawer/guesser in join order and a fresh word is drawn.  (The
source does not reset `strokes` or `wrongGuessCount` here.) -/
def startIfReady (w : String) (r : Room) : Room :=
  if r.users.length = 2 ∧ r.game.drawerUserKey = none then
    match r.users with
    | u1 :: u2 :: _ =>
      { r with game :=
        { r.game with
          drawerId := u1.socketId
          guesserId := u2.socketId
          drawerUserKey := some u1.userKey
          guesserUserKey := some u2.userKey
          currentWord := some w
          winnerUserKey := none } }
    | _ => r
  else r

/-- Tail of the `JOIN_ROOM` handler after the member was rebound or
admitted: the start-game-if-ready branch, then `syncStatuses` and
`syncWheelTurn`. -/
def finishJoin (w : String) (r : Room) : Room :=
  syncWheelTurn (syncStatuses (startIfReady w r))

/-- Rejoin path: restore the drawer's live socket id when the rejoining
key holds the drawer role. -/
def rebindDrawerId (userKey sid : String) (g : Game) : Game :=
  if g.drawerUserKey = some userKey then { g with drawerId := some sid } else g

/-- Rejoin path: restore the guesser's live socket id when the rejoining
key holds the guesser role. -/
def rebindGuesserId (userKey sid : String) (g : Game) : Game :=
  if g.guesserUserKey = some userKey then { g with guesserId := some sid } else g

/-- The rejoin path's restoration of the live role socket ids from the
stable role user keys. -/
def rebindRoleIds (userKey sid : String) (g : Game) : Game :=
  rebindGuesserId userKey sid (rebindDrawerId userKey sid g)

/-- `JOIN_ROOM` on an existing room: PIN check, rejoin-by-userKey (which
rebinds the live socket and the live role socket ids), or admit as a new
member when capacity allows. -/
def joinExisting (sid pin name color userKey w : String) (r : Room) :
    Room × JoinOutcome :=
  if r.pin ≠ pin then (r, .invalidPin)
  else
    match r.users.find? (fun u => u.userKey == userKey) with
    | some _ =>
      let users' := updateFirst (fun u => u.userKey == userKey)
        (fun u =>
          { u with socketId := some sid,
                   currentGame := if u.currentGame = "" then "DRAWING" else u.currentGame })
        r.users
      (finishJoin w { r with users := users', game := rebindRoleIds userKey sid r.game },
       .joined)
    | none =>
      if r.users.length ≥ 2 then (r, .roomFull)
      else
        let u : User :=
          { userKey := userKey, socketId := some sid, name := name,
            color := color, status := "WAITING", points := 0,
            currentGame := "DRAWING" }
        (finishJoin w { r with users := r.users ++ [u] }, .joined)

/-- `JOIN_ROOM` at registry level: an absent room is created implicitly
with the joiner as the sole member and the supplied pin stored verbatim. -/
def joinOrCreate (roomId sid pin name color userKey w : String)
    (ro : Option Room) : Room × JoinOutcome :=
  match ro with
  | none => (initialRoom roomId pin userKey sid name color, .created)
  | some r => joinExisting sid pin name color userKey w r

/-- `DRAW` handler: only the connection bound to `drawerId` may append a
stroke. -/
def handleDraw (sid stroke : String) (r : Room) : Room :=
  if r.game.drawerId = some sid then
    { r with game := { r.game with strokes := r.game.strokes ++ [stroke] } }
  else r

/-- `CLEAR_CANVAS_REQUEST` handler: only the current drawer's connection
clears the stroke log. -/
def handleClearCanvas (sid : String) (r : Room) : Room :=
  if r.game.drawerId = some sid then
    { r with game := { r.game with strokes := [] } }
  else r

/-- `guesser.points = (guesser.points || 0) + 1`: bump the score of the
first member holding the guesser role. -/
def bumpGuesser (r : Room) : List User :=
  updateFirst (fun u => r.game.guesserUserKey == some u.userKey)
    (fun u => { u with points := u.points + 1 }) r.users

/-- The `GAME_WINNER` branch's status reset applied to each member. -/
def waitingStatus (u : User) : User :=
  { u with status := if u.socketId.isSome then "WAITING" else "DISCONNECTED" }

/-- Point events the `GUESS` handler can emit (beyond the snapshot). -/
inductive GuessEffect where
  | ignored
  | wrongGuess (count : Nat)
  | roundSkipped (word : String)
  | gameWinner (userKey name : String) (points : Nat)
  | roundResult (word scorerUserKey : String) (points : Nat)
  deriving Repr, DecidableEq

/-- `GUESS` handler: guards (active word, both roles set, sender is the
guesser's live connection), then the mismatch branch (wrong-guess count,
cap-triggered rotation) or the match branch (score, win detection,
rotation).  `w` is the fresh `randomWord()` draw used on rotation. -/
def handleGuess (sid guess w : String) (r : Room) : Room × GuessEffect :=
  match r.game.currentWord with
  | none => (r, .ignored)
  | some cw =>
    if r.game.drawerUserKey = none ∨ r.game.guesserUserKey = none then (r, .ignored)
    else if r.game.guesserId ≠ some sid then (r, .ignored)
    else if jsTrim (jsToLower guess) ≠ jsToLower cw then
      let c := r.game.wrongGuessCount + 1
      if c ≥ MAX_WRONG_GUESSES then
        (rotateRoles w { r with game := { r.game with wrongGuessCount := c } },
         .roundSkipped cw)
      else
        ({ r with game := { r.game with wrongGuessCount := c } }, .wrongGuess c)
    else
      match r.users.find? (fun u => r.game.guesserUserKey == some u.userKey) with
      | none => (r, .ignored)
      | some g =>
        let pts := g.points + 1
        let r1 := { r with users := bumpGuesser r }
        if pts ≥ MAX_SCORE then
          let users2 := r1.users.map waitingStatus
          let g2 := { r1.game with
            winnerUserKey := some g.userKey, drawerId := none, guesserId := none,
            drawerUserKey := none, guesserUserKey := none, currentWord := none,
            strokes := [], wrongGuessCount := 0 }
          ({ r1 with users := users2, game := g2 }, .gameWinner g.userKey g.name pts)
        else
          (rotateRoles w r1, .roundResult cw g.userKey pts)

/-- `SKIP_ROUND` handler: same guards as `GUESS`, then an unconditional
no-score rotation; returns the skipped word when it fires. -/
def handleSkip (sid w : String) (r : Room) : Room × Option String :=
  match r.game.currentWord with
  | none => (r, none)
  | some cw =>
    if r.game.drawerUserKey = none ∨ r.game.guesserUserKey = none then (r, none)
    else if r.game.guesserId ≠ some sid then (r, none)
    else (rotateRoles w r, some cw)

/-- `RESTART_GAME` handler: any current member may trigger; all scores
reset to 0, a fresh round is derived from the connected members. -/
def handleRestart (sid w : String) (r : Room) : Room :=
  match r.users.find? (fun u => u.socketId == some sid) with
  | none => r
  | some _ =>
    syncWheelTurn (startRound w
      { r with users := r.users.map fun u => { u with points := 0 } })

/-- `SET_ACTIVE_GAME` handler: known enum values only; updates the
sender's `currentGame` and revalidates the wheel turn. -/
def handleSetActiveGame (sid game : String) (r : Room) : Room :=
  if game ≠ "DRAWING" ∧ game ≠ "WHEEL" ∧ game ≠ "MUSIC" ∧ game ≠ "LOBBY" then r
  else
    match r.users.find? (fun u => u.socketId == some sid) with
    | none => r
    | some _ =>
      let users1 := updateFirst (fun u => u.socketId == some sid)
        (fun u => { u with currentGame := game }) r.users
      syncWheelTurn { r with users := users1 }

/-- Reply of the `CLAIM_MUSIC_HOST` handler. -/
inductive ClaimEffect where
  | ignored
  | alreadyHosting (message : String)
  | granted
  deriving Repr, DecidableEq

/-- The connected blocking host of a `CLAIM_MUSIC_HOST` request: the
current host member when they are a *different* member still bound to a
live connection; `none` otherwise (free to claim). -/
def blockingHostOf (user : User) (r : Room) : Option User :=
  match r.music.hostUserKey with
  | none => none
  | some k =>
    if k = user.userKey then none
    else
      match r.users.find? (fun u => u.userKey == k) with
      | some h => if h.socketId.isSome then some h else none
      | none => none

/-- `CLAIM_MUSIC_HOST` handler: rejected (with an error naming the
holder) only when a *different* member holds the host role and that
member is currently connected; otherwise the claimant takes the role. -/
def handleClaimHost (sid : String) (r : Room) : Room × ClaimEffect :=
  match r.users.find? (fun u => u.socketId == some sid) with
  | none => (r, .ignored)
  | some user =>
    match blockingHostOf user r with
    | some h =>
      (r, .alreadyHosting
        ((if h.name = "" then "Current host" else h.name) ++ " is already hosting Spotify."))
    | none =>
      ({ r with music :=
        { r.music with
          hostUserKey := some user.userKey
          hostSocketId := some sid
          hostName := some user.name
          hostDeviceId := none
          hasHostSession :=
            match r.music.hostSession with
            | some s => s.accessToken ≠ ""
            | none => false } },
       .granted)

/-- `RELEASE_MUSIC_HOST` handler: only the current host; clears every
host-scoped field including identity. -/
def handleReleaseHost (sid : String) (r : Room) : Room :=
  match r.users.find? (fun u => u.socketId == some sid) with
  | none => r
  | some user =>
    if r.music.hostUserKey ≠ some user.userKey then r
    else
      { r with music :=
        { r.music with
          hostUserKey := none, hostSocketId := none, hostName := none,
          hostDeviceId := none, hasHostSession := false, clientId := "",
          hostSession := none } }

/-- `MUSIC_SUGGEST_TRACK` handler (`newId`/`now` model `makeId` and
`Date.now()`). -/
def handleSuggestTrack (sid : String) (track : TrackInput) (newId : String)
    (now : Int) (r : Room) : Room :=
  match r.users.find? (fun u => u.socketId == some sid) with
  | none => r
  | some user =>
    match normalizeTrackCandidate track with
    | none => r
    | some t =>
      let suggestions := r.music.suggestions ++
        [{ suggestionId := newId, id := t.id, uri := t.uri, name := t.name,
           artists := t.artists, albumImage := t.albumImage,
           suggestedByUserKey := user.userKey, suggestedByName := user.name,
           createdAt := now }]
      let suggestions' :=
        if suggestions.length > MAX_MUSIC_SUGGESTIONS then
          suggestions.drop (suggestions.length - MAX_MUSIC_SUGGESTIONS)
        else suggestions
      { r with music := { r.music with suggestions := suggestions' } }

/-- `MUSIC_ACCEPT_SUGGESTION` handler: host-only; moves the named entry
from `suggestions` into `queue`. -/
def handleAcceptSuggestion (sid sugId newId : String) (now : Int) (r : Room) : Room :=
  match r.users.find? (fun u => u.socketId == some sid) with
  | none => r
  | some user =>
    if r.music.hostUserKey ≠ some user.userKey then r
    else
      match r.music.suggestions.find? (fun s => s.suggestionId == sugId) with
      | none => r
      | some s =>
        let suggestions' := r.music.suggestions.eraseP (fun x => x.suggestionId == sugId)
        let queue' := r.music.queue ++
          [{ queueId := newId, id := s.id, uri := s.uri, name := s.name,
             artists := s.artists, albumImage := s.albumImage,
             suggestedByUserKey := s.suggestedByUserKey,
             suggestedByName := s.suggestedByName,
             acceptedByUserKey := user.userKey, acceptedAt := now }]
        let queue'' :=
          if queue'.length > MAX_MUSIC_QUEUE then
            queue'.drop (queue'.length - MAX_MUSIC_QUEUE)
          else queue'
        { r with music := { r.music with suggestions := suggestions', queue := queue'' } }

/-- `MUSIC_REJECT_SUGGESTION` handler: host-only; removes the named
entry from `suggestions`. -/
def handleRejectSuggestion (sid sugId : String) (r : Room) : Room :=
  match r.users.find? (fun u => u.socketId == some sid) with
  | none => r
  | some user =>
    if r.music.hostUserKey ≠ some user.userKey then r
    else
      let suggestions' := r.music.suggestions.filter (fun s => s.suggestionId != sugId)
      { r with music := { r.music with suggestions := suggestions' } }

/-- `MUSIC_ADD_TO_QUEUE` handler: host-only direct enqueue. -/
def handleAddToQueue (sid : String) (track : TrackInput) (newId : String)
    (now : Int) (r : Room) : Room :=
  match r.users.find? (fun u => u.socketId == some sid) with
  | none => r
  | some user =>
    if r.music.hostUserKey ≠ some user.userKey then r
    else
      match normalizeTrackCandidate track with
      | none => r
      | some t =>
        let queue' := r.music.queue ++
          [{ queueId := newId, id := t.id, uri := t.uri, name := t.name,
             artists := t.artists, albumImage := t.albumImage,
             suggestedByUserKey := user.userKey, suggestedByName := user.name,
             acceptedByUserKey := user.userKey, acceptedAt := now }]
        let queue'' :=
          if queue'.length > MAX_MUSIC_QUEUE then
            queue'.drop (queue'.length - MAX_MUSIC_QUEUE)
          else queue'
        { r with music := { r.music with queue := queue'' } }

/-- `SPOTIFY_HOST_SESSION_UPDATE` handler: host-only; an absent or
token-less bundle clears the stored credentials and device id, a real
bundle stores it and marks the host ready. -/
def handleHostSessionUpdate (sid clientId : String)
    (session : Option SessionInput) (r : Room) : Room :=
  match r.users.find? (fun u => u.socketId == some sid) with
  | none => r
  | some user =>
    if r.music.hostUserKey ≠ some user.userKey then r
    else
      let m := { r.music with hostSocketId := some sid }
      let tokenless := match session with
        | none => true
        | some s => s.accessToken = ""
      if tokenless then
        { r with music := { m with
            clientId := if clientId ≠ "" then clientId else m.clientId
            hostSession := none
            hasHostSession := false
            hostDeviceId := none } }
      else
        match session with
        | some s =>
          { r with music := { m with
              clientId := clientId
              hostSession := some
                { accessToken := s.accessToken, refreshToken := s.refreshToken,
                  expiresAt := s.expiresAt }
              hasHostSession := true } }
        | none => r

/-- `SPOTIFY_HOST_DEVICE_UPDATE` handler: host-only; records the bound
playback device (empty string coerces to null). -/
def handleHostDeviceUpdate (sid deviceId : String) (r : Room) : Room :=
  match r.users.find? (fun u => u.socketId == some sid) with
  | none => r
  | some user =>
    if r.music.hostUserKey ≠ some user.userKey then r
    else
      { r with music := { r.music with
          hostSocketId := some sid
          hostDeviceId := if deviceId = "" then none else some deviceId } }

/-- What the external Spotify calls made by one `MUSIC_CONTROL_REQUEST`
did: the `ensureRoomSpotifySession` + `spotifyHostFetch` chain either
threw (after a possibly-successful token refresh already stored into
the room) or succeeded (again possibly after a refresh). -/
inductive SpotifyOutcome where
  | err (message : String) (refreshed : Option Session)
  | ok (refreshed : Option Session)
  deriving Repr, DecidableEq

/-- The refreshed-session store performed by `ensureRoomSpotifySession`
(`room.music.hostSession = next`). -/
def applyRefresh (o : SpotifyOutcome) (r : Room) : Room :=
  match o with
  | .err _ (some s) => { r with music := { r.music with hostSession := some s } }
  | .ok (some s) => { r with music := { r.music with hostSession := some s } }
  | _ => r

/-- Is the oracle outcome a thrown error? -/
def SpotifyOutcome.isErr : SpotifyOutcome → Bool
  | .err _ _ => true
  | .ok _ => false

/-- `action` strings of `MUSIC_CONTROL_REQUEST`. -/
inductive MusicAction where
  | currentTrack
  | search
  | playUri
  | playQueuedNext
  | togglePlayPause
  | next
  | prev
  | unsupported
  deriving Repr, DecidableEq

/-- The acknowledged reply of a `MUSIC_CONTROL_REQUEST`. -/
inductive ControlReply where
  | fail (message : String)
  | ok
  | okTrack (t : QueueItem)
  deriving Repr, DecidableEq

/-- `MUSIC_CONTROL_REQUEST` handler.  Room-state effects mirror the
source: a ready host is required up front; `PLAY_QUEUED_NEXT` is
host-only, requires a non-empty queue, dequeues the head *before* the
awaited external play call and does not restore it when that call
throws; every action may store a refreshed token bundle. -/
def handleMusicControl (sid : String) (action : MusicAction)
    (o : SpotifyOutcome) (r : Room) : Room × ControlReply :=
  match r.users.find? (fun u => u.socketId == some sid) with
  | none => (r, .fail "User not found.")
  | some user =>
    if r.music.hostUserKey = none ∨ r.music.hasHostSession = false then
      (r, .fail "Spotify host is not ready.")
    else
      match action with
      | .playQueuedNext =>
        if r.music.hostUserKey ≠ some user.userKey then
          (r, .fail "Only host can play from queue.")
        else
          match r.music.queue with
          | [] => (r, .fail "Queue is empty.")
          | next :: rest =>
            let r1 := applyRefresh o { r with music := { r.music with queue := rest } }
            match o with
            | .err m _ => (r1, .fail m)
            | .ok _ => (r1, .okTrack next)
      | .unsupported => (r, .fail "Unsupported action.")
      | _ =>
        let r1 := applyRefresh o r
        match o with
        | .err m _ => (r1, .fail m)
        | .ok _ => (r1, .ok)

/-- `SET_WHEEL_OPTIONS` handler: any member; replaces the option list
only when the normalization yields at least one option. -/
def handleSetWheelOptions (sid : String) (options : List String) (r : Room) : Room :=
  match r.users.find? (fun u => u.socketId == some sid) with
  | none => r
  | some _ =>
    let nextOptions := normalizeWheelOptions options
    if nextOptions = [] then r
    else { r with game := { r.game with wheelOptions := nextOptions } }

/-- `ADD_LOBBY_NOTE` handler. -/
def handleAddLobbyNote (sid text newId : String) (now : Int) (r : Room) : Room :=
  match r.users.find? (fun u => u.socketId == some sid) with
  | none => r
  | some user =>
    let content := normalizeLobbyNote text
    if content = "" then r
    else
      let notes := r.lobbyNotes ++
        [{ id := newId, userKey := user.userKey, name := user.name,
           color := user.color, text := content, createdAt := now }]
      { r with lobbyNotes :=
          if notes.length > MAX_LOBBY_NOTES then
            notes.drop (notes.length - MAX_LOBBY_NOTES)
          else notes }

/-- `DELETE_LOBBY_NOTE` handler: removes a note only when both the id
matches and the requester authored it. -/
def handleDeleteLobbyNote (sid noteId : String) (r : Room) : Room :=
  match r.users.find? (fun u => u.socketId == some sid) with
  | none => r
  | some user =>
    let notes' := r.lobbyNotes.filter fun n =>
      ¬ (n.id = noteId ∧ n.userKey = user.userKey)
    { r with lobbyNotes := notes' }

/-- The turn handoff at the end of `SPIN_WHEEL`: the first eligible
WHEEL-tab member other than the spinner when two or more are eligible
(`nextSpinner?.userKey || spinner.userKey`), the spinner otherwise. -/
def wheelTurnAfterSpin (spinner : User) (wheelUsers : List User) : String :=
  if 2 ≤ wheelUsers.length then
    ((wheelUsers.find? (fun u => u.userKey != spinner.userKey)).map User.userKey).getD
      spinner.userKey
  else spinner.userKey

/-- `SPIN_WHEEL` handler.  `idx` models the `Math.random()` draw (taken
modulo the option count).  Note the source checks only that the sender
is a connected member currently on the WHEEL tab — it never compares
the sender against `wheelTurnUserKey`. -/
def handleSpinWheel (sid : String) (idx : Nat) (r : Room) :
    Room × Option (String × Nat × String) :=
  match r.users.find? (fun u => u.socketId == some sid) with
  | none => (r, none)
  | some spinner =>
    if spinner.currentGame ≠ "WHEEL" then (r, none)
    else
      let r1 := syncWheelTurn r
      let options := normalizeWheelOptions r1.game.wheelOptions
      if options = [] then (r1, none)
      else
        let winnerIndex := idx % options.length
        let prompt := options.getD winnerIndex ""
        let r2 := { r1 with game := { r1.game with wheelOptions := options } }
        let wheelUsers := r2.users.filter
          (fun u => u.socketId.isSome && u.currentGame == "WHEEL")
        let turn := wheelTurnAfterSpin spinner wheelUsers
        ({ r2 with game := { r2.game with wheelTurnUserKey := some turn } },
         some (prompt, winnerIndex, spinner.userKey))

/-- Disconnect path: clear the drawer's live socket id when it was this
connection. -/
def clearDrawerId (sid : String) (g : Game) : Game :=
  if g.drawerId = some sid then { g with drawerId := none } else g

/-- Disconnect path: clear the guesser's live socket id when it was this
connection. -/
def clearGuesserId (sid : String) (g : Game) : Game :=
  if g.guesserId = some sid then { g with guesserId := none } else g

/-- The socket `disconnect` handler, restricted to one room containing a
member bound to this connection: clears the live role socket ids held by
this connection, detaches the member (kept in the room), clears the
host-scoped live fields when the member is the music host, then
recomputes statuses and the wheel turn. -/
def handleDisconnect (sid : String) (r : Room) : Room :=
  match r.users.find? (fun u => u.socketId == some sid) with
  | none => r
  | some user =>
    let g := clearGuesserId sid (clearDrawerId sid r.game)
    let users' := updateFirst (fun u => u.socketId == some sid)
      (fun u => { u with socketId := none }) r.users
    let m :=
      if r.music.hostUserKey = some user.userKey then
        { r.music with
          hostSocketId := none, hostDeviceId := none,
          hasHostSession := false, clientId := "", hostSession := none }
      else r.music
    syncWheelTurn (syncStatuses { r with users := users', game := g, music := m })

/-- One inbound event addressed to a given (existing) room.  Random
draws, generated ids, clock reads and external-call outcomes are
carried in the event. -/
inductive Event where
  | join (sid pin name color userKey w : String)
  | draw (sid stroke : String)
  | clearCanvas (sid : String)
  | guessWord (sid text w : String)
  | skipRound (sid w : String)
  | restartGame (sid w : String)
  | setActiveGame (sid game : String)
  | claimHost (sid : String)
  | releaseHost (sid : String)
  | suggestTrack (sid : String) (t : TrackInput) (newId : String) (now : Int)
  | acceptSuggestion (sid sugId newId : String) (now : Int)
  | rejectSuggestion (sid sugId : String)
  | addToQueue (sid : String) (t : TrackInput) (newId : String) (now : Int)
  | hostSessionUpdate (sid clientId : String) (session : Option SessionInput)
  | hostDeviceUpdate (sid deviceId : String)
  | musicControl (sid : String) (a : MusicAction) (o : SpotifyOutcome)
  | setWheelOptions (sid : String) (options : List String)
  | addLobbyNote (sid text newId : String) (now : Int)
  | deleteLobbyNote (sid noteId : String)
  | spinWheel (sid : String) (idx : Nat)
  | disconnect (sid : String)
  deriving Repr, DecidableEq

/-- The room-state effect of one inbound event (the snapshot the server
then broadcasts is exactly this post-state). -/
def stepRoom (e : Event) (r : Room) : Room :=
  match e with
  | .join sid pin name color userKey w => (joinExisting sid pin name color userKey w r).1
  | .draw sid stroke => handleDraw sid stroke r
  | .clearCanvas sid => handleClearCanvas sid r
  | .guessWord sid text w => (handleGuess sid text w r).1
  | .skipRound sid w => (handleSkip sid w r).1
  | .restartGame sid w => handleRestart sid w r
  | .setActiveGame sid game => handleSetActiveGame sid game r
  | .claimHost sid => (handleClaimHost sid r).1
  | .releaseHost sid => handleReleaseHost sid r
  | .suggestTrack sid t newId now => handleSuggestTrack sid t newId now r
  | .acceptSuggestion sid sugId newId now => handleAcceptSuggestion sid sugId newId now r
  | .rejectSuggestion sid sugId => handleRejectSuggestion sid sugId r
  | .addToQueue sid t newId now => handleAddToQueue sid t newId now r
  | .hostSessionUpdate sid clientId session => handleHostSessionUpdate sid clientId session r
  | .hostDeviceUpdate sid deviceId => handleHostDeviceUpdate sid deviceId r
  | .musicControl sid a o => (handleMusicControl sid a o r).1
  | .setWheelOptions sid options => handleSetWheelOptions sid options r
  | .addLobbyNote sid text newId now => handleAddLobbyNote sid text newId now r
  | .deleteLobbyNote sid noteId => handleDeleteLobbyNote sid noteId r
  | .spinWheel sid idx => handleSpinWheel sid idx r |>.1
  | .disconnect sid => handleDisconnect sid r

/-- Rooms reachable by the server: created by `CREATE_ROOM` or the
implicit-create branch of `JOIN_ROOM`, then evolved one event at a
time. -/
inductive Reachable : Room → Prop where
  | init (roomId pin userKey sid name color : String) :
      Reachable (initialRoom roomId pin userKey sid name color)
  | step (e : Event) (r : Room) : Reachable r → Reachable (stepRoom e r)

/-! ## Derived observations used by the specification claims -/

/-- The registered member keys of a user list (membership is by stable
`userKey`; a member with `socketId = none` is still registered). -/
def keysOf (l : List User) : List String := l.map User.userKey

/-- Key/points pairs of a user list, in order. -/
def kpOf (l : List User) : List (String × Nat) := l.map fun u => (u.userKey, u.points)

/-- The score of the first member with key `k`. -/
def pointsOf (r : Room) (k : String) : Option Nat :=
  (r.users.find? (fun u => u.userKey == k)).map User.points

/-- Number of currently connected members. -/
def connectedCount (r : Room) : Nat :=
  (r.users.filter fun u => u.socketId.isSome).length

/-- The role invariant of claim C1: the two role keys are both null or
are two distinct keys of currently registered members. -/
def RolesOk (r : Room) : Prop :=
  (r.game.drawerUserKey = none ∧ r.game.guesserUserKey = none) ∨
  (∃ a b, r.game.drawerUserKey = some a ∧ r.game.guesserUserKey = some b ∧
    a ≠ b ∧ a ∈ keysOf r.users ∧ b ∈ keysOf r.users)

/-- The word invariant of claim C1: an active word implies both roles
are set. -/
def WordOk (r : Room) : Prop :=
  r.game.currentWord ≠ none →
    r.game.drawerUserKey ≠ none ∧ r.game.guesserUserKey ≠ none

/-- Inductive room invariant: member keys are pairwise distinct and the
role/word invariants hold. -/
def Inv (r : Room) : Prop :=
  (keysOf r.users).Nodup ∧ RolesOk r ∧ WordOk r

/-! ## Frame lemmas for the consistency-restoring passes -/

theorem keysOf_map (f : User → User) (hf : ∀ u, (f u).userKey = u.userKey)
    (l : List User) : keysOf (l.map f) = keysOf l := by
  simp only [keysOf, List.map_map]
  exact List.map_congr_left fun u _ => hf u

theorem kpOf_map (f : User → User)
    (hf : ∀ u, (f u).userKey = u.userKey ∧ (f u).points = u.points)
    (l : List User) : kpOf (l.map f) = kpOf l := by
  simp only [kpOf, List.map_map]
  exact List.map_congr_left fun u _ => by
    simp [Function.comp, (hf u).1, (hf u).2]

theorem keysOf_updateFirst (p : User → Bool) (f : User → User)
    (hf : ∀ u, (f u).userKey = u.userKey) (l : List User) :
    keysOf (updateFirst p f l) = keysOf l := by
  induction l with
  | nil => rfl
  | cons u us ih =>
    by_cases hp : p u <;> simp [updateFirst, hp, keysOf, hf] at ih ⊢ <;>
      simpa [keysOf] using ih

theorem kpOf_updateFirst (p : User → Bool) (f : User → User)
    (hf : ∀ u, (f u).userKey = u.userKey ∧ (f u).points = u.points)
    (l : List User) : kpOf (updateFirst p f l) = kpOf l := by
  induction l with
  | nil => rfl
  | cons u us ih =>
    by_cases hp : p u <;>
      simp [updateFirst, hp, kpOf, (hf u).1, (hf u).2] at ih ⊢ <;>
      simpa [kpOf] using ih

theorem keysOf_of_kpOf {l l' : List User} (h : kpOf l = kpOf l') :
    keysOf l = keysOf l' := by
  have := congrArg (List.map Prod.fst) h
  simpa [kpOf, keysOf, List.map_map, Function.comp] using this

theorem syncStatuses_game (r : Room) : (syncStatuses r).game = r.game := rfl

theorem syncStatuses_music (r : Room) : (syncStatuses r).music = r.music := rfl

theorem syncStatuses_lobbyNotes (r : Room) :
    (syncStatuses r).lobbyNotes = r.lobbyNotes := rfl

theorem kpOf_syncStatuses (r : Room) :
    kpOf (syncStatuses r).users = kpOf r.users := by
  apply kpOf_map
  intro u
  constructor <;> (dsimp only []; split <;> split <;> rfl)

theorem keysOf_syncStatuses (r : Room) :
    keysOf (syncStatuses r).users = keysOf r.users :=
  keysOf_of_kpOf (kpOf_syncStatuses r)

/-- `syncWheelTurn` only ever rewrites `wheelTurnUserKey`. -/
theorem syncWheelTurn_eq (r : Room) :
    ∃ t, syncWheelTurn r = { r with game := { r.game with wheelTurnUserKey := t } } := by
  unfold syncWheelTurn
  cases h : r.users.filter (fun u => u.socketId.isSome && u.currentGame == "WHEEL") with
  | nil => exact ⟨none, rfl⟩
  | cons u0 tl =>
    dsimp only []
    split
    · exact ⟨r.game.wheelTurnUserKey, rfl⟩
    · exact ⟨some u0.userKey, rfl⟩

theorem syncWheelTurn_users (r : Room) : (syncWheelTurn r).users = r.users := by
  obtain ⟨t, ht⟩ := syncWheelTurn_eq r
  rw [ht]

theorem syncWheelTurn_drawerUserKey (r : Room) :
    (syncWheelTurn r).game.drawerUserKey = r.game.drawerUserKey := by
  obtain ⟨t, ht⟩ := syncWheelTurn_eq r
  rw [ht]

theorem syncWheelTurn_guesserUserKey (r : Room) :
    (syncWheelTurn r).game.guesserUserKey = r.game.guesserUserKey := by
  obtain ⟨t, ht⟩ := syncWheelTurn_eq r
  rw [ht]

theorem syncWheelTurn_currentWord (r : Room) :
    (syncWheelTurn r).game.currentWord = r.game.currentWord := by
  obtain ⟨t, ht⟩ := syncWheelTurn_eq r
  rw [ht]

theorem syncWheelTurn_wheelOptions (r : Room) :
    (syncWheelTurn r).game.wheelOptions = r.game.wheelOptions := by
  obtain ⟨t, ht⟩ := syncWheelTurn_eq r
  rw [ht]

theorem syncWheelTurn_music (r : Room) : (syncWheelTurn r).music = r.music := by
  obtain ⟨t, ht⟩ := syncWheelTurn_eq r
  rw [ht]

theorem syncWheelTurn_lobbyNotes (r : Room) :
    (syncWheelTurn r).lobbyNotes = r.lobbyNotes := by
  obtain ⟨t, ht⟩ := syncWheelTurn_eq r
  rw [ht]

/-! ## Invariant preservation -/

theorem rolesOk_of_eqs {r r' : Room}
    (hk : keysOf r.users ⊆ keysOf r'.users)
    (hd : r'.game.drawerUserKey = r.game.drawerUserKey)
    (hg : r'.game.guesserUserKey = r.game.guesserUserKey)
    (h : RolesOk r) : RolesOk r' := by
  rcases h with ⟨h1, h2⟩ | ⟨a, b, ha, hb, hab, hma, hmb⟩
  · exact Or.inl ⟨hd.trans h1, hg.trans h2⟩
  · exact Or.inr ⟨a, b, hd.trans ha, hg.trans hb, hab, hk hma, hk hmb⟩

theorem wordOk_of_eqs {r r' : Room}
    (hd : r'.game.drawerUserKey = r.game.drawerUserKey)
    (hg : r'.game.guesserUserKey = r.game.guesserUserKey)
    (hw : r'.game.currentWord = r.game.currentWord)
    (h : WordOk r) : WordOk r' := by
  intro hcw
  rw [hw] at hcw
  exact ⟨hd ▸ (h hcw).1, hg ▸ (h hcw).2⟩

theorem inv_of_eqs {r r' : Room}
    (hk : keysOf r'.users = keysOf r.users)
    (hd : r'.game.drawerUserKey = r.game.drawerUserKey)
    (hg : r'.game.guesserUserKey = r.game.guesserUserKey)
    (hw : r'.game.currentWord = r.game.currentWord)
    (h : Inv r) : Inv r' :=
  ⟨hk ▸ h.1, rolesOk_of_eqs (hk ▸ fun _ hx => hx) hd hg h.2.1,
   wordOk_of_eqs hd hg hw h.2.2⟩

theorem inv_syncStatuses {r : Room} (h : Inv r) : Inv (syncStatuses r) :=
  inv_of_eqs (keysOf_syncStatuses r) rfl rfl rfl h

theorem inv_syncWheelTurn {r : Room} (h : Inv r) : Inv (syncWheelTurn r) :=
  inv_of_eqs (by rw [syncWheelTurn_users]) (syncWheelTurn_drawerUserKey r)
    (syncWheelTurn_guesserUserKey r) (syncWheelTurn_currentWord r) h

theorem rotateRoles_drawerUserKey (w : String) (r : Room) :
    (rotateRoles w r).game.drawerUserKey = r.game.guesserUserKey := rfl

theorem rotateRoles_guesserUserKey (w : String) (r : Room) :
    (rotateRoles w r).game.guesserUserKey = r.game.drawerUserKey := rfl

theorem rotateRoles_currentWord (w : String) (r : Room) :
    (rotateRoles w r).game.currentWord = some w := rfl

theorem rotateRoles_wrongGuessCount (w : String) (r : Room) :
    (rotateRoles w r).game.wrongGuessCount = 0 := rfl

theorem keysOf_rotateRoles (w : String) (r : Room) :
    keysOf (rotateRoles w r).users = keysOf r.users := by
  unfold rotateRoles
  rw [keysOf_syncStatuses]

theorem kpOf_rotateRoles (w : String) (r : Room) :
    kpOf (rotateRoles w r).users = kpOf r.users := by
  unfold rotateRoles
  rw [kpOf_syncStatuses]

theorem rotateRoles_inv {r : Room} (w : String) (h : Inv r)
    (hset : ¬ (r.game.drawerUserKey = none ∨ r.game.guesserUserKey = none)) :
    Inv (rotateRoles w r) := by
  obtain ⟨hn, hr, _⟩ := h
  rcases hr with ⟨h1, _⟩ | ⟨a, b, ha, hb, hab, hma, hmb⟩
  · exact absurd (Or.inl h1) hset
  · refine ⟨by rw [keysOf_rotateRoles]; exact hn, ?_, ?_⟩
    · refine Or.inr ⟨b, a, ?_, ?_, hab.symm, ?_, ?_⟩
      · rw [rotateRoles_drawerUserKey, hb]
      · rw [rotateRoles_guesserUserKey, ha]
      · rw [keysOf_rotateRoles]; exact hmb
      · rw [keysOf_rotateRoles]; exact hma
    · intro _
      rw [rotateRoles_drawerUserKey, rotateRoles_guesserUserKey, ha, hb]
      exact ⟨Option.some_ne_none b, Option.some_ne_none a⟩

theorem startRound_inv {r : Room} (w : String)
    (hn : (keysOf r.users).Nodup) : Inv (startRound w r) := by
  unfold startRound
  cases h : r.users.filter (fun u => u.socketId.isSome) with
  | nil =>
    refine ⟨by rw [keysOf_syncStatuses]; exact hn, Or.inl ⟨rfl, rfl⟩, ?_⟩
    intro hcw
    exact absurd rfl hcw
  | cons u1 tl =>
    cases tl with
    | nil =>
      refine ⟨by rw [keysOf_syncStatuses]; exact hn, Or.inl ⟨rfl, rfl⟩, ?_⟩
      intro hcw
      exact absurd rfl hcw
    | cons u2 rest =>
      have hsub : List.Sublist (u1 :: u2 :: rest) r.users :=
        h ▸ List.filter_sublist r.users
      have hksub : List.Sublist (keysOf (u1 :: u2 :: rest)) (keysOf r.users) :=
        List.Sublist.map User.userKey hsub
      have hknd : (keysOf (u1 :: u2 :: rest)).Nodup := hn.sublist hksub
      have hne : u1.userKey ≠ u2.userKey := by
        have := (List.nodup_cons.mp hknd).1
        intro hcontra
        exact this (by simp [keysOf, hcontra])
      have hm1 : u1.userKey ∈ keysOf r.users :=
        List.mem_map_of_mem User.userKey (hsub.subset (by simp))
      have hm2 : u2.userKey ∈ keysOf r.users :=
        List.mem_map_of_mem User.userKey (hsub.subset (by simp))
      dsimp only []
      refine ⟨?_, ?_, ?_⟩
      · rw [keysOf_syncStatuses]; exact hn
      · refine Or.inr ⟨u1.userKey, u2.userKey, ?_, ?_, hne, ?_, ?_⟩
        · rw [syncStatuses_game]
        · rw [syncStatuses_game]
        · rw [keysOf_syncStatuses]; exact hm1
        · rw [keysOf_syncStatuses]; exact hm2
      · intro _
        constructor
        · rw [syncStatuses_game]; simp
        · rw [syncStatuses_game]; simp

theorem rebindRoleIds_drawerUserKey (userKey sid : String) (g : Game) :
    (rebindRoleIds userKey sid g).drawerUserKey = g.drawerUserKey := by
  unfold rebindRoleIds rebindGuesserId rebindDrawerId
  split <;> split <;> rfl

theorem rebindRoleIds_guesserUserKey (userKey sid : String) (g : Game) :
    (rebindRoleIds userKey sid g).guesserUserKey = g.guesserUserKey := by
  unfold rebindRoleIds rebindGuesserId rebindDrawerId
  split <;> split <;> rfl

theorem rebindRoleIds_currentWord (userKey sid : String) (g : Game) :
    (rebindRoleIds userKey sid g).currentWord = g.currentWord := by
  unfold rebindRoleIds rebindGuesserId rebindDrawerId
  split <;> split <;> rfl

theorem startIfReady_inv {r : Room} (w : String) (h : Inv r) :
    Inv (startIfReady w r) := by
  unfold startIfReady
  split
  case isTrue hc =>
    obtain ⟨hn, _, _⟩ := h
    cases hu : r.users with
    | nil => rw [hu] at hc; simp at hc
    | cons u1 tl =>
      cases tl with
      | nil => rw [hu] at hc; simp at hc
      | cons u2 rest =>
        have hknd : (keysOf (u1 :: u2 :: rest)).Nodup := hu ▸ hn
        have hne : u1.userKey ≠ u2.userKey := by
          have := (List.nodup_cons.mp hknd).1
          intro hcontra
          exact this (by simp [keysOf, hcontra])
        dsimp only []
        refine ⟨hknd, ?_, ?_⟩
        · refine Or.inr ⟨u1.userKey, u2.userKey, rfl, rfl, hne, ?_, ?_⟩
          · simp [keysOf]
          · simp [keysOf]
        · intro _
          exact ⟨by simp, by simp⟩
  case isFalse => exact h

theorem finishJoin_inv {r : Room} (w : String) (h : Inv r) :
    Inv (finishJoin w r) :=
  inv_syncWheelTurn (inv_syncStatuses (startIfReady_inv w h))

theorem inv_users_game_frame {r r' : Room} (hu : r'.users = r.users)
    (hg : r'.game = r.game) (h : Inv r) : Inv r' :=
  inv_of_eqs (by rw [hu]) (by rw [hg]) (by rw [hg]) (by rw [hg]) h

theorem inv_handleDraw {r : Room} (sid stroke : String) (h : Inv r) :
    Inv (handleDraw sid stroke r) := by
  unfold handleDraw
  split
  · exact inv_of_eqs rfl rfl rfl rfl h
  · exact h

theorem inv_handleClearCanvas {r : Room} (sid : String) (h : Inv r) :
    Inv (handleClearCanvas sid r) := by
  unfold handleClearCanvas
  split
  · exact inv_of_eqs rfl rfl rfl rfl h
  · exact h

theorem inv_handleSetActiveGame {r : Room} (sid game : String) (h : Inv r) :
    Inv (handleSetActiveGame sid game r) := by
  unfold handleSetActiveGame
  split
  · exact h
  · cases hf : r.users.find? (fun u => u.socketId == some sid) with
    | none => exact h
    | some user =>
      dsimp only []
      apply inv_syncWheelTurn
      have hk := keysOf_updateFirst (fun u => u.socketId == some sid)
        (fun u => { u with currentGame := game }) (fun u => rfl) r.users
      exact inv_of_eqs hk rfl rfl rfl h

theorem inv_handleClaimHost {r : Room} (sid : String) (h : Inv r) :
    Inv (handleClaimHost sid r).1 := by
  unfold handleClaimHost
  cases hf : r.users.find? (fun u => u.socketId == some sid) with
  | none => exact h
  | some user =>
    dsimp only []
    split
    · exact h
    · exact inv_users_game_frame rfl rfl h

theorem inv_handleReleaseHost {r : Room} (sid : String) (h : Inv r) :
    Inv (handleReleaseHost sid r) := by
  unfold handleReleaseHost
  cases hf : r.users.find? (fun u => u.socketId == some sid) with
  | none => exact h
  | some user =>
    dsimp only []
    split
    · exact h
    · exact inv_users_game_frame rfl rfl h

theorem inv_handleSuggestTrack {r : Room} (sid : String) (t : TrackInput)
    (newId : String) (now : Int) (h : Inv r) :
    Inv (handleSuggestTrack sid t newId now r) := by
  unfold handleSuggestTrack
  cases hf : r.users.find? (fun u => u.socketId == some sid) with
  | none => exact h
  | some user =>
    dsimp only []
    cases normalizeTrackCandidate t with
    | none => exact h
    | some t' => exact inv_users_game_frame rfl rfl h

theorem inv_handleAcceptSuggestion {r : Room} (sid sugId newId : String)
    (now : Int) (h : Inv r) : Inv (handleAcceptSuggestion sid sugId newId now r) := by
  unfold handleAcceptSuggestion
  cases hf : r.users.find? (fun u => u.socketId == some sid) with
  | none => exact h
  | some user =>
    dsimp only []
    split
    · exact h
    · cases hs : r.music.suggestions.find? (fun s => s.suggestionId == sugId) with
      | none => exact h
      | some s => exact inv_users_game_frame rfl rfl h

theorem inv_handleRejectSuggestion {r : Room} (sid sugId : String) (h : Inv r) :
    Inv (handleRejectSuggestion sid sugId r) := by
  unfold handleRejectSuggestion
  cases hf : r.users.find? (fun u => u.socketId == some sid) with
  | none => exact h
  | some user =>
    dsimp only []
    split
    · exact h
    · exact inv_users_game_frame rfl rfl h

theorem inv_handleAddToQueue {r : Room} (sid : String) (t : TrackInput)
    (newId : String) (now : Int) (h : Inv r) :
    Inv (handleAddToQueue sid t newId now r) := by
  unfold handleAddToQueue
  cases hf : r.users.find? (fun u => u.socketId == some sid) with
  | none => exact h
  | some user =>
    dsimp only []
    split
    · exact h
    · cases normalizeTrackCandidate t with
      | none => exact h
      | some t' => exact inv_users_game_frame rfl rfl h

theorem inv_handleHostSessionUpdate {r : Room} (sid clientId : String)
    (session : Option SessionInput) (h : Inv r) :
    Inv (handleHostSessionUpdate sid clientId session r) := by
  unfold handleHostSessionUpdate
  cases hf : r.users.find? (fun u => u.socketId == some sid) with
  | none => exact h
  | some user =>
    dsimp only []
    split
    · exact h
    · split
      · exact inv_users_game_frame rfl rfl h
      · cases session with
        | none => exact h
        | some s => exact inv_users_game_frame rfl rfl h

theorem inv_handleHostDeviceUpdate {r : Room} (sid deviceId : String) (h : Inv r) :
    Inv (handleHostDeviceUpdate sid deviceId r) := by
  unfold handleHostDeviceUpdate
  cases hf : r.users.find? (fun u => u.socketId == some sid) with
  | none => exact h
  | some user =>
    dsimp only []
    split
    · exact h
    · exact inv_users_game_frame rfl rfl h

theorem inv_applyRefresh {r : Room} (o : SpotifyOutcome) (h : Inv r) :
    Inv (applyRefresh o r) := by
  unfold applyRefresh
  split
  · exact inv_users_game_frame rfl rfl h
  · exact inv_users_game_frame rfl rfl h
  · exact h

theorem inv_handleMusicControl {r : Room} (sid : String) (a : MusicAction)
    (o : SpotifyOutcome) (h : Inv r) : Inv (handleMusicControl sid a o r).1 := by
  unfold handleMusicControl
  cases hf : r.users.find? (fun u => u.socketId == some sid) with
  | none => exact h
  | some user =>
    dsimp only []
    split
    · exact h
    · split
      · split
        · exact h
        · cases r.music.queue with
          | nil => exact h
          | cons q rest =>
            dsimp only []
            cases o with
            | err m s => exact inv_applyRefresh _ (inv_users_game_frame rfl rfl h)
            | ok s => exact inv_applyRefresh _ (inv_users_game_frame rfl rfl h)
      · exact h
      all_goals
        cases o with
        | err m s => exact inv_applyRefresh _ h
        | ok s => exact inv_applyRefresh _ h

theorem inv_handleSetWheelOptions {r : Room} (sid : String)
    (options : List String) (h : Inv r) :
    Inv (handleSetWheelOptions sid options r) := by
  unfold handleSetWheelOptions
  cases hf : r.users.find? (fun u => u.socketId == some sid) with
  | none => exact h
  | some user =>
    dsimp only []
    split
    · exact h
    · exact inv_of_eqs rfl rfl rfl rfl h

theorem inv_handleAddLobbyNote {r : Room} (sid text newId : String) (now : Int)
    (h : Inv r) : Inv (handleAddLobbyNote sid text newId now r) := by
  unfold handleAddLobbyNote
  cases hf : r.users.find? (fun u => u.socketId == some sid) with
  | none => exact h
  | some user =>
    dsimp only []
    split
    · exact h
    · exact inv_users_game_frame rfl rfl h

theorem inv_handleDeleteLobbyNote {r : Room} (sid noteId : String) (h : Inv r) :
    Inv (handleDeleteLobbyNote sid noteId r) := by
  unfold handleDeleteLobbyNote
  cases hf : r.users.find? (fun u => u.socketId == some sid) with
  | none => exact h
  | some user =>
    dsimp only []
    exact inv_users_game_frame rfl rfl h

theorem inv_handleSpinWheel {r : Room} (sid : String) (idx : Nat) (h : Inv r) :
    Inv (handleSpinWheel sid idx r).1 := by
  unfold handleSpinWheel
  cases hf : r.users.find? (fun u => u.socketId == some sid) with
  | none => exact h
  | some spinner =>
    dsimp only []
    split
    · exact h
    · split
      · exact inv_syncWheelTurn h
      · apply inv_of_eqs ?_ ?_ ?_ ?_ h
        · rw [syncWheelTurn_users]
        · rw [syncWheelTurn_drawerUserKey]
        · rw [syncWheelTurn_guesserUserKey]
        · rw [syncWheelTurn_currentWord]

theorem clearRoleIds_drawerUserKey (sid : String) (g : Game) :
    (clearGuesserId sid (clearDrawerId sid g)).drawerUserKey = g.drawerUserKey := by
  unfold clearGuesserId clearDrawerId
  split <;> split <;> rfl

theorem clearRoleIds_guesserUserKey (sid : String) (g : Game) :
    (clearGuesserId sid (clearDrawerId sid g)).guesserUserKey = g.guesserUserKey := by
  unfold clearGuesserId clearDrawerId
  split <;> split <;> rfl

theorem clearRoleIds_currentWord (sid : String) (g : Game) :
    (clearGuesserId sid (clearDrawerId sid g)).currentWord = g.currentWord := by
  unfold clearGuesserId clearDrawerId
  split <;> split <;> rfl

theorem inv_handleDisconnect {r : Room} (sid : String) (h : Inv r) :
    Inv (handleDisconnect sid r) := by
  unfold handleDisconnect
  cases hf : r.users.find? (fun u => u.socketId == some sid) with
  | none => exact h
  | some user =>
    dsimp only []
    apply inv_syncWheelTurn
    apply inv_syncStatuses
    have hk := keysOf_updateFirst (fun u => u.socketId == some sid)
      (fun u => { u with socketId := none }) (fun u => rfl) r.users
    exact inv_of_eqs hk (clearRoleIds_drawerUserKey sid r.game)
      (clearRoleIds_guesserUserKey sid r.game)
      (clearRoleIds_currentWord sid r.game) h

theorem inv_joinExisting {r : Room} (sid pin name color userKey w : String)
    (h : Inv r) : Inv (joinExisting sid pin name color userKey w r).1 := by
  unfold joinExisting
  split
  · exact h
  · cases hf : r.users.find? (fun u => u.userKey == userKey) with
    | some u0 =>
      dsimp only []
      apply finishJoin_inv
      have hk := keysOf_updateFirst (fun u => u.userKey == userKey)
        (fun u =>
          { u with
            socketId := some sid
            currentGame := if u.currentGame = "" then "DRAWING" else u.currentGame })
        (fun u => rfl) r.users
      exact inv_of_eqs hk (rebindRoleIds_drawerUserKey userKey sid r.game)
        (rebindRoleIds_guesserUserKey userKey sid r.game)
        (rebindRoleIds_currentWord userKey sid r.game) h
    | none =>
      dsimp only []
      split
      · exact h
      · apply finishJoin_inv
        have hnotin : userKey ∉ keysOf r.users := by
          intro hmem
          obtain ⟨x, hx, hxk⟩ := List.mem_map.mp hmem
          have := List.find?_eq_none.mp hf x hx
          simp [hxk] at this
        refine ⟨?_, ?_, ?_⟩
        · have : keysOf (r.users ++
              [{ userKey := userKey, socketId := some sid, name := name,
                 color := color, status := "WAITING", points := 0,
                 currentGame := "DRAWING" }]) = keysOf r.users ++ [userKey] := by
            simp [keysOf]
          rw [this]
          simp [List.nodup_append, h.1, hnotin]
        · refine rolesOk_of_eqs ?_ ?_ ?_ h.2.1
          · simp only [keysOf, List.map_append]
            exact List.subset_append_left _ _
          · rfl
          · rfl
        · exact wordOk_of_eqs rfl rfl rfl h.2.2

theorem inv_handleGuess {r : Room} (sid text w : String) (h : Inv r) :
    Inv (handleGuess sid text w r).1 := by
  unfold handleGuess
  cases hcw : r.game.currentWord with
  | none => exact h
  | some cw =>
    dsimp only []
    split
    · exact h
    case isFalse hroles =>
      split
      · exact h
      · split
        · split
          · exact rotateRoles_inv w (inv_of_eqs rfl rfl rfl rfl h) hroles
          · exact inv_of_eqs rfl rfl rfl rfl h
        · cases hfind : r.users.find? (fun u => r.game.guesserUserKey == some u.userKey) with
          | none => exact h
          | some g =>
            dsimp only []
            split
            · have hk1 : keysOf (bumpGuesser r) = keysOf r.users :=
                keysOf_updateFirst (fun u => r.game.guesserUserKey == some u.userKey)
                  (fun u => { u with points := u.points + 1 }) (fun u => rfl) r.users
              refine ⟨?_, Or.inl ⟨rfl, rfl⟩, ?_⟩
              · have hk2 : keysOf ((bumpGuesser r).map waitingStatus) =
                    keysOf (bumpGuesser r) :=
                  keysOf_map waitingStatus (fun u => rfl) _
                rw [hk2, hk1]
                exact h.1
              · intro hcontra
                exact absurd rfl hcontra
            · refine rotateRoles_inv w ?_ hroles
              have hk1 : keysOf (bumpGuesser r) = keysOf r.users :=
                keysOf_updateFirst (fun u => r.game.guesserUserKey == some u.userKey)
                  (fun u => { u with points := u.points + 1 }) (fun u => rfl) r.users
              exact inv_of_eqs hk1 rfl rfl rfl h

theorem inv_handleSkip {r : Room} (sid w : String) (h : Inv r) :
    Inv (handleSkip sid w r).1 := by
  unfold handleSkip
  cases hcw : r.game.currentWord with
  | none => exact h
  | some cw =>
    dsimp only []
    split
    · exact h
    case isFalse hroles =>
      split
      · exact h
      · exact rotateRoles_inv w h hroles

theorem inv_handleRestart {r : Room} (sid w : String) (h : Inv r) :
    Inv (handleRestart sid w r) := by
  unfold handleRestart
  cases hf : r.users.find? (fun u => u.socketId == some sid) with
  | none => exact h
  | some u0 =>
    dsimp only []
    apply inv_syncWheelTurn
    apply startRound_inv
    have hk := keysOf_map (fun u => { u with points := 0 }) (fun u => rfl) r.users
    dsimp only [] at hk ⊢
    rw [hk]
    exact h.1

/-- Every inbound event preserves the room invariant. -/
theorem inv_stepRoom (e : Event) {r : Room} (h : Inv r) : Inv (stepRoom e r) := by
  cases e with
  | join sid pin name color userKey w => exact inv_joinExisting sid pin name color userKey w h
  | draw sid stroke => exact inv_handleDraw sid stroke h
  | clearCanvas sid => exact inv_handleClearCanvas sid h
  | guessWord sid text w => exact inv_handleGuess sid text w h
  | skipRound sid w => exact inv_handleSkip sid w h
  | restartGame sid w => exact inv_handleRestart sid w h
  | setActiveGame sid game => exact inv_handleSetActiveGame sid game h
  | claimHost sid => exact inv_handleClaimHost sid h
  | releaseHost sid => exact inv_handleReleaseHost sid h
  | suggestTrack sid t newId now => exact inv_handleSuggestTrack sid t newId now h
  | acceptSuggestion sid sugId newId now => exact inv_handleAcceptSuggestion sid sugId newId now h
  | rejectSuggestion sid sugId => exact inv_handleRejectSuggestion sid sugId h
  | addToQueue sid t newId now => exact inv_handleAddToQueue sid t newId now h
  | hostSessionUpdate sid clientId session => exact inv_handleHostSessionUpdate sid clientId session h
  | hostDeviceUpdate sid deviceId => exact inv_handleHostDeviceUpdate sid deviceId h
  | musicControl sid a o => exact inv_handleMusicControl sid a o h
  | setWheelOptions sid options => exact inv_handleSetWheelOptions sid options h
  | addLobbyNote sid text newId now => exact inv_handleAddLobbyNote sid text newId now h
  | deleteLobbyNote sid noteId => exact inv_handleDeleteLobbyNote sid noteId h
  | spinWheel sid idx => exact inv_handleSpinWheel sid idx h
  | disconnect sid => exact inv_handleDisconnect sid h

theorem inv_initialRoom (roomId pin userKey sid name color : String) :
    Inv (initialRoom roomId pin userKey sid name color) := by
  refine ⟨?_, Or.inl ⟨rfl, rfl⟩, ?_⟩
  · simp [initialRoom, keysOf]
  · intro hcontra
    exact absurd rfl hcontra

/-- Every reachable room satisfies the full inductive invariant. -/
theorem reachable_inv {r : Room} (h : Reachable r) : Inv r := by
  induction h with
  | init roomId pin userKey sid name color => exact inv_initialRoom roomId pin userKey sid name color
  | step e r _ ih => exact inv_stepRoom e ih

/-! ## Concrete rooms used as witnesses and counterexamples -/

/-- A fresh one-member room (Alice creates `R1` with pin `1234`). -/
def roomAlice : Room := initialRoom "R1" "1234" "A" "sA" "Alice" "red"

/-- Bob joins with the correct pin: a two-member room mid-round, with
Alice drawing the word `cat` and Bob guessing. -/
def roomPair : Room := (joinExisting "sB" "1234" "Bob" "blue" "B" "cat" roomAlice).1

/-! ## C1 -/

/-- C1: for every room reachable by the server, in every broadcast
snapshot, `drawerUserKey` and `guesserUserKey` are either both null or
two distinct userKeys of currently-registered members of that room, and
whenever `currentWord` is non-null both role keys are set. -/
theorem C1_role_keys_invariant (r : Room) (h : Reachable r) :
    RolesOk r ∧ WordOk r :=
  ⟨(reachable_inv h).2.1, (reachable_inv h).2.2⟩

/-- C1 witness: the invariant holds at a concretely reachable room. -/
theorem C1_role_keys_invariant_witness :
    RolesOk roomAlice ∧ WordOk roomAlice :=
  C1_role_keys_invariant roomAlice (Reachable.init "R1" "1234" "A" "sA" "Alice" "red")

/-! ## C10 -/

/-- C10: a `JOIN_ROOM` naming an absent `roomId` always succeeds, for
every supplied pin: the room is created with the joiner as sole member
and the supplied pin stored verbatim; only joins to an existing room are
checked against the stored pin (mismatch is rejected with no state
change). -/
theorem C10_implicit_create_skips_pin_check
    (roomId sid pin name color userKey w : String) :
    (joinOrCreate roomId sid pin name color userKey w none =
        (initialRoom roomId pin userKey sid name color, JoinOutcome.created)) ∧
    (initialRoom roomId pin userKey sid name color).pin = pin ∧
    (initialRoom roomId pin userKey sid name color).users =
      [{ userKey := userKey, socketId := some sid, name := name, color := color,
         status := "WAITING", points := 0, currentGame := "DRAWING" }] ∧
    (∀ r : Room, r.pin ≠ pin →
      joinOrCreate roomId sid pin name color userKey w (some r) =
        (r, JoinOutcome.invalidPin)) := by
  refine ⟨rfl, rfl, rfl, ?_⟩
  intro r hpin
  unfold joinOrCreate joinExisting
  dsimp only []
  rw [if_pos hpin]

/-- C10 witness: instantiated at a concrete join, including the
rejected wrong-pin join against the created room. -/
theorem C10_implicit_create_skips_pin_check_witness :
    (joinOrCreate "R1" "sA" "1234" "Alice" "red" "A" "cat" none =
        (initialRoom "R1" "1234" "A" "sA" "Alice" "red", JoinOutcome.created)) ∧
    roomAlice.pin ≠ "9999" ∧
    (joinOrCreate "R1" "sB" "9999" "Bob" "blue" "B" "cat" (some roomAlice) =
        (roomAlice, JoinOutcome.invalidPin)) :=
  ⟨(C10_implicit_create_skips_pin_check "R1" "sA" "1234" "Alice" "red" "A" "cat").1,
   by decide,
   (C10_implicit_create_skips_pin_check "R1" "sB" "9999" "Bob" "blue" "B" "cat").2.2.2
     roomAlice (by decide)⟩

/-! ## C9 -/

/-- C9 counterexample: in `roomPair` both members are connected and a
round is live.  Bob's socket disconnects: the broadcast snapshot then
has only one connected user, yet both role user keys are still set (the
disconnect handler clears only the live socket ids `drawerId` /
`guesserId`). -/
theorem C9_counterexample :
    connectedCount (handleDisconnect "sB" roomPair) < 2 ∧
    (handleDisconnect "sB" roomPair).game.drawerUserKey = some "A" ∧
    (handleDisconnect "sB" roomPair).game.guesserUserKey = some "B" ∧
    (handleDisconnect "sB" roomPair).game.guesserId = none := by decide

/-- C9 amended: role user keys are cleared (together with the word) when
a round start finds fewer than 2 connected users — `startRound`, reached
only via `RESTART_GAME` — while a disconnect leaves both role user keys
unchanged and clears only the live role socket bindings, so a snapshot
broadcast after a disconnect can carry non-null role keys with fewer
than 2 connected users. -/
theorem C9_amended (w sid : String) (r : Room) :
    (connectedCount r < 2 →
      (startRound w r).game.drawerUserKey = none ∧
      (startRound w r).game.guesserUserKey = none ∧
      (startRound w r).game.currentWord = none) ∧
    ((handleDisconnect sid r).game.drawerUserKey = r.game.drawerUserKey ∧
     (handleDisconnect sid r).game.guesserUserKey = r.game.guesserUserKey) := by
  constructor
  · intro hc
    unfold startRound
    cases hfil : r.users.filter (fun u => u.socketId.isSome) with
    | nil => exact ⟨rfl, rfl, rfl⟩
    | cons u1 tl =>
      cases tl with
      | nil => exact ⟨rfl, rfl, rfl⟩
      | cons u2 rest =>
        exfalso
        unfold connectedCount at hc
        rw [hfil] at hc
        simp at hc
        omega
  · unfold handleDisconnect
    cases hf : r.users.find? (fun u => u.socketId == some sid) with
    | none => exact ⟨rfl, rfl⟩
    | some user =>
      dsimp only []
      constructor
      · rw [syncWheelTurn_drawerUserKey, syncStatuses_game]
        exact clearRoleIds_drawerUserKey sid r.game
      · rw [syncWheelTurn_guesserUserKey, syncStatuses_game]
        exact clearRoleIds_guesserUserKey sid r.game

/-- C9 witness for the amended statement: a concrete one-member room
(restart clears roles) and the concrete disconnect of `roomPair`. -/
theorem C9_amended_witness :
    (connectedCount (handleDisconnect "sB" roomPair) < 2 ∧
      (startRound "dog" (handleDisconnect "sB" roomPair)).game.drawerUserKey = none) ∧
    (handleDisconnect "sB" roomPair).game.drawerUserKey = roomPair.game.drawerUserKey :=
  ⟨⟨by decide,
    ((C9_amended "dog" "sB" (handleDisconnect "sB" roomPair)).1 (by decide)).1⟩,
   (C9_amended "dog" "sB" roomPair).2.1⟩

/-! ## C8 -/

/-- Alice's member record inside `roomPair` (drawer, connected). -/
def uAlicePair : User :=
  { userKey := "A", socketId := some "sA", name := "Alice", color := "red",
    status := "DRAWING", points := 0, currentGame := "DRAWING" }

/-- `roomPair` after Alice claims the music host role. -/
def roomHost : Room := (handleClaimHost "sA" roomPair).1

/-- C8: when the music host's connection disconnects, the credential
bundle and device id are cleared and the ready flag drops, but
`hostUserKey` (and `hostName`) remain assigned; an explicit
`RELEASE_MUSIC_HOST` additionally clears the identity fields.  Scores,
membership, lobby notes, and the suggestion/queue contents are untouched
by either clearing. -/
theorem C8_host_disconnect_keeps_identity (r : Room) (sid : String) (user : User)
    (hf : r.users.find? (fun u => u.socketId == some sid) = some user)
    (hhost : r.music.hostUserKey = some user.userKey) :
    ((handleDisconnect sid r).music.hostUserKey = some user.userKey ∧
     (handleDisconnect sid r).music.hostName = r.music.hostName ∧
     (handleDisconnect sid r).music.hostSession = none ∧
     (handleDisconnect sid r).music.hostDeviceId = none ∧
     (handleDisconnect sid r).music.hasHostSession = false ∧
     (handleDisconnect sid r).music.hostSocketId = none ∧
     kpOf (handleDisconnect sid r).users = kpOf r.users ∧
     (handleDisconnect sid r).lobbyNotes = r.lobbyNotes ∧
     (handleDisconnect sid r).music.queue = r.music.queue ∧
     (handleDisconnect sid r).music.suggestions = r.music.suggestions) ∧
    (r.music.hostUserKey = some user.userKey →
     (handleReleaseHost sid r).music.hostUserKey = none ∧
     (handleReleaseHost sid r).music.hostName = none ∧
     (handleReleaseHost sid r).music.hostSession = none ∧
     (handleReleaseHost sid r).music.hostDeviceId = none ∧
     (handleReleaseHost sid r).music.hasHostSession = false ∧
     (handleReleaseHost sid r).users = r.users ∧
     (handleReleaseHost sid r).lobbyNotes = r.lobbyNotes ∧
     (handleReleaseHost sid r).music.queue = r.music.queue ∧
     (handleReleaseHost sid r).music.suggestions = r.music.suggestions) := by
  constructor
  · unfold handleDisconnect
    rw [hf]
    dsimp only []
    rw [if_pos hhost]
    refine ⟨?_, ?_, ?_, ?_, ?_, ?_, ?_, ?_, ?_, ?_⟩
    · rw [syncWheelTurn_music, syncStatuses_music]
      exact hhost
    · rw [syncWheelTurn_music, syncStatuses_music]
    · rw [syncWheelTurn_music, syncStatuses_music]
    · rw [syncWheelTurn_music, syncStatuses_music]
    · rw [syncWheelTurn_music, syncStatuses_music]
    · rw [syncWheelTurn_music, syncStatuses_music]
    · rw [syncWheelTurn_users, kpOf_syncStatuses]
      exact kpOf_updateFirst (fun u => u.socketId == some sid)
        (fun u => { u with socketId := none }) (fun u => ⟨rfl, rfl⟩) r.users
    · rw [syncWheelTurn_lobbyNotes, syncStatuses_lobbyNotes]
    · rw [syncWheelTurn_music, syncStatuses_music]
    · rw [syncWheelTurn_music, syncStatuses_music]
  · intro _
    unfold handleReleaseHost
    rw [hf]
    dsimp only []
    rw [if_neg (fun hne => hne hhost)]
    exact ⟨rfl, rfl, rfl, rfl, rfl, rfl, rfl, rfl, rfl⟩

/-- C8 witness: Alice hosts in `roomHost`; her disconnect clears the
session fields but keeps her as host, and an explicit release clears
identity too. -/
theorem C8_host_disconnect_keeps_identity_witness :
    (handleDisconnect "sA" roomHost).music.hostUserKey = some "A" ∧
    (handleDisconnect "sA" roomHost).music.hasHostSession = false ∧
    (handleReleaseHost "sA" roomHost).music.hostUserKey = none := by
  have h := C8_host_disconnect_keeps_identity roomHost "sA" uAlicePair
    (by decide) (by decide)
  exact ⟨h.1.1.trans rfl, h.1.2.2.2.2.1, (h.2 (by decide)).1⟩

/-! ## C7 -/

/-- C7 counterexample: in `roomHost` the connected member Alice already
holds the host role.  Her own renewed `CLAIM_MUSIC_HOST` is *granted*
(and rebinds the host fields) rather than failing, so a claim issued
while a connected host exists does not always fail. -/
theorem C7_counterexample :
    roomHost.music.hostUserKey = some "A" ∧
    ((roomHost.users.find? (fun u => u.userKey == "A")).bind User.socketId).isSome ∧
    (handleClaimHost "sA" roomHost).2 = ClaimEffect.granted ∧
    (handleClaimHost "sA" roomHost).1.music.hostDeviceId = none := by decide

/-- C7 amended: at most one host exists (a grant installs the claimant
as the sole `hostUserKey`); a claim from a member *other* than the
current host while that host is connected always fails with an error
naming the holder and leaves the room unchanged; the claim is granted
exactly when no blocking connected host exists — no host, a
disconnected host, or the claimant being the host themself. -/
theorem C7_amended (r : Room) (sid : String) (user : User)
    (hf : r.users.find? (fun u => u.socketId == some sid) = some user) :
    (∀ k h, r.music.hostUserKey = some k → k ≠ user.userKey →
      r.users.find? (fun u => u.userKey == k) = some h → h.socketId.isSome →
      blockingHostOf user r = some h) ∧
    (r.music.hostUserKey = some user.userKey → blockingHostOf user r = none) ∧
    (r.music.hostUserKey = none → blockingHostOf user r = none) ∧
    (∀ h, blockingHostOf user r = some h →
      handleClaimHost sid r =
        (r, ClaimEffect.alreadyHosting
          ((if h.name = "" then "Current host" else h.name) ++
            " is already hosting Spotify."))) ∧
    (blockingHostOf user r = none →
      (handleClaimHost sid r).2 = ClaimEffect.granted ∧
      (handleClaimHost sid r).1.music.hostUserKey = some user.userKey ∧
      (handleClaimHost sid r).1.music.hostSocketId = some sid ∧
      (handleClaimHost sid r).1.users = r.users) := by
  refine ⟨?_, ?_, ?_, ?_, ?_⟩
  · intro k h hk hne hfk hconn
    unfold blockingHostOf
    rw [hk]
    dsimp only []
    rw [if_neg hne, hfk]
    dsimp only []
    rw [if_pos hconn]
  · intro hk
    unfold blockingHostOf
    rw [hk]
    dsimp only []
    rw [if_pos rfl]
  · intro hk
    unfold blockingHostOf
    rw [hk]
  · intro h hb
    unfold handleClaimHost
    rw [hf]
    dsimp only []
    rw [hb]
  · intro hb
    unfold handleClaimHost
    rw [hf]
    dsimp only []
    rw [hb]
    exact ⟨rfl, rfl, rfl, rfl⟩

/-- C7 witness: Bob's claim against connected host Alice is denied with
an error naming her, leaving the room unchanged; Alice's own claim in a
hostless room is granted. -/
theorem C7_amended_witness :
    handleClaimHost "sB" roomHost =
      (roomHost, ClaimEffect.alreadyHosting "Alice is already hosting Spotify.") ∧
    (handleClaimHost "sA" roomPair).2 = ClaimEffect.granted := by
  constructor
  · have h := (C7_amended roomHost "sB"
      { userKey := "B", socketId := some "sB", name := "Bob", color := "blue",
        status := "GUESSING", points := 0, currentGame := "DRAWING" }
      (by decide)).2.2.2.1 uAlicePair (by decide)
    exact h.trans (by decide)
  · have h := (C7_amended roomPair "sA" uAlicePair (by decide)).2.2.2.2 (by decide)
    exact h.1

/-! ## C6 -/

theorem applyRefresh_queue (o : SpotifyOutcome) (r : Room) :
    (applyRefresh o r).music.queue = r.music.queue := by
  unfold applyRefresh
  split <;> rfl

theorem applyRefresh_users (o : SpotifyOutcome) (r : Room) :
    (applyRefresh o r).users = r.users := by
  unfold applyRefresh
  split <;> rfl

/-- Alice (the host) pushes a credential bundle into `roomHost`. -/
def roomSession : Room :=
  handleHostSessionUpdate "sA" "cid" (some { accessToken := "tok", refreshToken := "ref", expiresAt := 9999 }) roomHost

/-- A track Alice enqueues directly. -/
def trackIn : TrackInput :=
  { id := "t1", uri := "spotify:track:abc", name := "Song", artists := "X", albumImage := "" }

/-- `roomSession` with one accepted queue entry. -/
def roomQueue : Room := handleAddToQueue "sA" trackIn "q1" 42 roomSession

/-- C6 counterexample: with a ready host and a one-entry queue, a
`PLAY_QUEUED_NEXT` whose external play call throws returns a failure to
the caller but the already-dequeued head entry is *not* restored — the
queue entry is lost, so the previously-valid state does not remain
intact. -/
theorem C6_counterexample :
    roomQueue.music.queue.length = 1 ∧
    (handleMusicControl "sA" MusicAction.playQueuedNext
        (SpotifyOutcome.err "Spotify API failed (502)." none) roomQueue).2 =
      ControlReply.fail "Spotify API failed (502)." ∧
    (handleMusicControl "sA" MusicAction.playQueuedNext
        (SpotifyOutcome.err "Spotify API failed (502)." none) roomQueue).1.music.queue = [] := by
  decide

/-- C6 amended: failures at the guard stage (unknown requester, host not
ready, non-host requester, empty queue) leave the room unchanged and
return a failure outcome; once the guards pass, the head entry is
dequeued *before* the external play call, so an external failure still
returns a failure outcome but the dequeued entry is lost; on success
exactly one entry (the head) is dequeued and returned. -/
theorem C6_amended (r : Room) (sid : String) (o : SpotifyOutcome) :
    (r.users.find? (fun u => u.socketId == some sid) = none →
      handleMusicControl sid MusicAction.playQueuedNext o r =
        (r, ControlReply.fail "User not found.")) ∧
    (∀ user, r.users.find? (fun u => u.socketId == some sid) = some user →
      (r.music.hostUserKey = none ∨ r.music.hasHostSession = false) →
      handleMusicControl sid MusicAction.playQueuedNext o r =
        (r, ControlReply.fail "Spotify host is not ready.")) ∧
    (∀ user, r.users.find? (fun u => u.socketId == some sid) = some user →
      ¬ (r.music.hostUserKey = none ∨ r.music.hasHostSession = false) →
      r.music.hostUserKey ≠ some user.userKey →
      handleMusicControl sid MusicAction.playQueuedNext o r =
        (r, ControlReply.fail "Only host can play from queue.")) ∧
    (∀ user, r.users.find? (fun u => u.socketId == some sid) = some user →
      ¬ (r.music.hostUserKey = none ∨ r.music.hasHostSession = false) →
      r.music.hostUserKey = some user.userKey →
      r.music.queue = [] →
      handleMusicControl sid MusicAction.playQueuedNext o r =
        (r, ControlReply.fail "Queue is empty.")) ∧
    (∀ user t rest, r.users.find? (fun u => u.socketId == some sid) = some user →
      ¬ (r.music.hostUserKey = none ∨ r.music.hasHostSession = false) →
      r.music.hostUserKey = some user.userKey →
      r.music.queue = t :: rest →
      (handleMusicControl sid MusicAction.playQueuedNext o r).1.music.queue = rest ∧
      (∀ m s, o = SpotifyOutcome.err m s →
        (handleMusicControl sid MusicAction.playQueuedNext o r).2 = ControlReply.fail m) ∧
      (∀ s, o = SpotifyOutcome.ok s →
        (handleMusicControl sid MusicAction.playQueuedNext o r).2 = ControlReply.okTrack t)) := by
  refine ⟨?_, ?_, ?_, ?_, ?_⟩
  · intro hf
    unfold handleMusicControl
    rw [hf]
  · intro user hf hnr
    unfold handleMusicControl
    rw [hf]
    dsimp only []
    rw [if_pos hnr]
  · intro user hf hr hne
    unfold handleMusicControl
    rw [hf]
    dsimp only []
    rw [if_neg hr]
    rw [if_pos hne]
  · intro user hf hr hkey hq
    unfold handleMusicControl
    rw [hf]
    dsimp only []
    rw [if_neg hr]
    rw [if_neg (fun hne => hne hkey), hq]
  · intro user t rest hf hr hkey hq
    unfold handleMusicControl
    rw [hf]
    dsimp only []
    rw [if_neg hr]
    rw [if_neg (fun hne => hne hkey), hq]
    dsimp only []
    refine ⟨?_, ?_, ?_⟩
    · cases o with
      | err m s => rw [applyRefresh_queue]
      | ok s => rw [applyRefresh_queue]
    · intro m s ho
      subst ho
      rfl
    · intro s ho
      subst ho
      rfl

/-- C6 amended witness: the concrete one-entry queue room — success
dequeues the entry; a non-host request fails with the queue intact. -/
theorem C6_amended_witness :
    (handleMusicControl "sA" MusicAction.playQueuedNext (SpotifyOutcome.ok none) roomQueue).1.music.queue = [] ∧
    handleMusicControl "sB" MusicAction.playQueuedNext (SpotifyOutcome.ok none) roomQueue =
      (roomQueue, ControlReply.fail "Only host can play from queue.") := by
  constructor
  · have h := (C6_amended roomQueue "sA" (SpotifyOutcome.ok none)).2.2.2.2 uAlicePair
      { queueId := "q1", id := "t1", uri := "spotify:track:abc", name := "Song",
        artists := "X", albumImage := "", suggestedByUserKey := "A",
        suggestedByName := "Alice", acceptedByUserKey := "A", acceptedAt := 42 }
      [] (by decide) (by decide) (by decide) (by decide)
    exact h.1
  · exact (C6_amended roomQueue "sB" (SpotifyOutcome.ok none)).2.2.1
      { userKey := "B", socketId := some "sB", name := "Bob", color := "blue",
        status := "GUESSING", points := 0, currentGame := "DRAWING" }
      (by decide) (by decide) (by decide)

/-! ## C5 -/

/-- `roomPair` with both members switched to the WHEEL tab; the wheel
turn belongs to Alice (first eligible member). -/
def roomWheel : Room :=
  handleSetActiveGame "sB" "WHEEL" (handleSetActiveGame "sA" "WHEEL" roomPair)

/-- Bob's member record inside `roomWheel`. -/
def uBobWheel : User :=
  { userKey := "B", socketId := some "sB", name := "Bob", color := "blue",
    status := "GUESSING", points := 0, currentGame := "WHEEL" }

/-- C5 counterexample: in `roomWheel` the wheel turn belongs to Alice —
also after re-validation (`syncWheelTurn`) — yet Bob's `SPIN_WHEEL`
still produces a spin result naming Bob as spinner: the handler never
compares the sender against `wheelTurnUserKey`. -/
theorem C5_counterexample :
    roomWheel.game.wheelTurnUserKey = some "A" ∧
    (syncWheelTurn roomWheel).game.wheelTurnUserKey = some "A" ∧
    (handleSpinWheel "sB" 0 roomWheel).2 = some ("Movie night pick", 0, "B") := by
  decide

/-- C5 amended: a `SPIN_WHEEL` is accepted from any connected member
currently on the WHEEL tab whenever the normalized option list is
non-empty — the turn holder is *not* checked; it then emits a result
naming that member with an in-range index.  Requests from unknown
connections or members not on the WHEEL tab leave the room unchanged
and produce no result. -/
theorem C5_amended (r : Room) (sid : String) (idx : Nat) :
    (r.users.find? (fun u => u.socketId == some sid) = none →
      handleSpinWheel sid idx r = (r, none)) ∧
    (∀ spinner, r.users.find? (fun u => u.socketId == some sid) = some spinner →
      spinner.currentGame ≠ "WHEEL" →
      handleSpinWheel sid idx r = (r, none)) ∧
    (∀ spinner, r.users.find? (fun u => u.socketId == some sid) = some spinner →
      spinner.currentGame = "WHEEL" →
      normalizeWheelOptions r.game.wheelOptions ≠ [] →
      ∃ i, i < (normalizeWheelOptions r.game.wheelOptions).length ∧
        (handleSpinWheel sid idx r).2 =
          some ((normalizeWheelOptions r.game.wheelOptions).getD i "", i,
            spinner.userKey)) := by
  refine ⟨?_, ?_, ?_⟩
  · intro hf
    unfold handleSpinWheel
    rw [hf]
  · intro spinner hf hng
    unfold handleSpinWheel
    rw [hf]
    dsimp only []
    rw [if_pos hng]
  · intro spinner hf hg hne
    unfold handleSpinWheel
    rw [hf]
    dsimp only []
    rw [if_neg (fun hcon => hcon hg)]
    rw [syncWheelTurn_wheelOptions]
    rw [if_neg hne]
    exact ⟨idx % (normalizeWheelOptions r.game.wheelOptions).length,
      Nat.mod_lt _ (List.length_pos.mpr hne), rfl⟩

/-- C5 amended witness: Bob on the DRAWING tab cannot spin (`roomPair`);
Bob on the WHEEL tab spins successfully (`roomWheel`) though Alice holds
the turn. -/
theorem C5_amended_witness :
    handleSpinWheel "sB" 7 roomPair = (roomPair, none) ∧
    (∃ i, i < (normalizeWheelOptions roomWheel.game.wheelOptions).length ∧
      (handleSpinWheel "sB" 7 roomWheel).2 =
        some ((normalizeWheelOptions roomWheel.game.wheelOptions).getD i "", i, "B")) := by
  constructor
  · exact (C5_amended roomPair "sB" 7).2.1
      { userKey := "B", socketId := some "sB", name := "Bob", color := "blue",
        status := "GUESSING", points := 0, currentGame := "DRAWING" }
      (by decide) (by decide)
  · exact (C5_amended roomWheel "sB" 7).2.2 uBobWheel (by decide) (by decide) (by decide)

/-! ## Score bookkeeping (C2 / C3 / C4 groundwork) -/

theorem pointsOf_eq_kp (r : Room) (k : String) :
    pointsOf r k = ((kpOf r.users).find? (fun x => x.1 == k)).map Prod.snd := by
  unfold pointsOf kpOf
  rw [List.find?_map, Option.map_map]
  rfl

theorem pointsOf_eq_of_kpOf {r r' : Room} (h : kpOf r'.users = kpOf r.users)
    (k : String) : pointsOf r' k = pointsOf r k := by
  rw [pointsOf_eq_kp, pointsOf_eq_kp, h]

theorem find?_congr_pred {p q : User → Bool} (h : ∀ u, p u = q u) :
    ∀ l : List User, l.find? p = l.find? q := by
  intro l
  induction l with
  | nil => rfl
  | cons u us ih =>
    rw [List.find?_cons, List.find?_cons, h u]
    split <;> [rfl; exact ih]

theorem users_startIfReady (w : String) (r : Room) :
    (startIfReady w r).users = r.users := by
  unfold startIfReady
  split
  · cases hu : r.users with
    | nil =>
      dsimp only []
      exact hu
    | cons u1 tl =>
      cases tl with
      | nil =>
        dsimp only []
        exact hu
      | cons u2 rest => rfl
  · rfl

theorem kpOf_finishJoin (w : String) (r : Room) :
    kpOf (finishJoin w r).users = kpOf r.users := by
  unfold finishJoin
  rw [syncWheelTurn_users, kpOf_syncStatuses, users_startIfReady]

theorem users_handleDraw (sid stroke : String) (r : Room) :
    (handleDraw sid stroke r).users = r.users := by
  unfold handleDraw
  split <;> rfl

theorem users_handleClearCanvas (sid : String) (r : Room) :
    (handleClearCanvas sid r).users = r.users := by
  unfold handleClearCanvas
  split <;> rfl

theorem users_handleClaimHost (sid : String) (r : Room) :
    (handleClaimHost sid r).1.users = r.users := by
  unfold handleClaimHost
  cases hf : r.users.find? (fun u => u.socketId == some sid) with
  | none => rfl
  | some user =>
    dsimp only []
    split <;> rfl

theorem users_handleReleaseHost (sid : String) (r : Room) :
    (handleReleaseHost sid r).users = r.users := by
  unfold handleReleaseHost
  cases hf : r.users.find? (fun u => u.socketId == some sid) with
  | none => rfl
  | some user =>
    dsimp only []
    split <;> rfl

theorem users_handleSuggestTrack (sid : String) (t : TrackInput) (newId : String)
    (now : Int) (r : Room) : (handleSuggestTrack sid t newId now r).users = r.users := by
  unfold handleSuggestTrack
  cases hf : r.users.find? (fun u => u.socketId == some sid) with
  | none => rfl
  | some user =>
    dsimp only []
    cases normalizeTrackCandidate t <;> rfl

theorem users_handleAcceptSuggestion (sid sugId newId : String) (now : Int)
    (r : Room) : (handleAcceptSuggestion sid sugId newId now r).users = r.users := by
  unfold handleAcceptSuggestion
  cases hf : r.users.find? (fun u => u.socketId == some sid) with
  | none => rfl
  | some user =>
    dsimp only []
    split
    · rfl
    · cases r.music.suggestions.find? (fun s => s.suggestionId == sugId) <;> rfl

theorem users_handleRejectSuggestion (sid sugId : String) (r : Room) :
    (handleRejectSuggestion sid sugId r).users = r.users := by
  unfold handleRejectSuggestion
  cases hf : r.users.find? (fun u => u.socketId == some sid) with
  | none => rfl
  | some user =>
    dsimp only []
    split <;> rfl

theorem users_handleAddToQueue (sid : String) (t : TrackInput) (newId : String)
    (now : Int) (r : Room) : (handleAddToQueue sid t newId now r).users = r.users := by
  unfold handleAddToQueue
  cases hf : r.users.find? (fun u => u.socketId == some sid) with
  | none => rfl
  | some user =>
    dsimp only []
    split
    · rfl
    · cases normalizeTrackCandidate t <;> rfl

theorem users_handleHostSessionUpdate (sid clientId : String)
    (session : Option SessionInput) (r : Room) :
    (handleHostSessionUpdate sid clientId session r).users = r.users := by
  unfold handleHostSessionUpdate
  cases hf : r.users.find? (fun u => u.socketId == some sid) with
  | none => rfl
  | some user =>
    dsimp only []
    split
    · rfl
    · split
      · rfl
      · cases session <;> rfl

theorem users_handleHostDeviceUpdate (sid deviceId : String) (r : Room) :
    (handleHostDeviceUpdate sid deviceId r).users = r.users := by
  unfold handleHostDeviceUpdate
  cases hf : r.users.find? (fun u => u.socketId == some sid) with
  | none => rfl
  | some user =>
    dsimp only []
    split <;> rfl

theorem users_handleMusicControl (sid : String) (a : MusicAction)
    (o : SpotifyOutcome) (r : Room) :
    (handleMusicControl sid a o r).1.users = r.users := by
  unfold handleMusicControl
  cases hf : r.users.find? (fun u => u.socketId == some sid) with
  | none => rfl
  | some user =>
    dsimp only []
    split
    · rfl
    · cases a with
      | playQueuedNext =>
        dsimp only []
        split
        · rfl
        · cases r.music.queue with
          | nil => rfl
          | cons t rest =>
            dsimp only []
            cases o <;> simp [applyRefresh_users]
      | unsupported => rfl
      | currentTrack => cases o <;> simp [applyRefresh_users]
      | search => cases o <;> simp [applyRefresh_users]
      | playUri => cases o <;> simp [applyRefresh_users]
      | togglePlayPause => cases o <;> simp [applyRefresh_users]
      | next => cases o <;> simp [applyRefresh_users]
      | prev => cases o <;> simp [applyRefresh_users]

theorem users_handleSetWheelOptions (sid : String) (options : List String)
    (r : Room) : (handleSetWheelOptions sid options r).users = r.users := by
  unfold handleSetWheelOptions
  cases hf : r.users.find? (fun u => u.socketId == some sid) with
  | none => rfl
  | some user =>
    dsimp only []
    split <;> rfl

theorem users_handleAddLobbyNote (sid text newId : String) (now : Int) (r : Room) :
    (handleAddLobbyNote sid text newId now r).users = r.users := by
  unfold handleAddLobbyNote
  cases hf : r.users.find? (fun u => u.socketId == some sid) with
  | none => rfl
  | some user =>
    dsimp only []
    split <;> rfl

theorem users_handleDeleteLobbyNote (sid noteId : String) (r : Room) :
    (handleDeleteLobbyNote sid noteId r).users = r.users := by
  unfold handleDeleteLobbyNote
  cases hf : r.users.find? (fun u => u.socketId == some sid) with
  | none => rfl
  | some user => rfl

theorem users_handleSpinWheel (sid : String) (idx : Nat) (r : Room) :
    (handleSpinWheel sid idx r).1.users = r.users := by
  unfold handleSpinWheel
  cases hf : r.users.find? (fun u => u.socketId == some sid) with
  | none => rfl
  | some spinner =>
    dsimp only []
    split
    · rfl
    · split
      · exact syncWheelTurn_users r
      · exact syncWheelTurn_users r

theorem kpOf_handleSetActiveGame (sid game : String) (r : Room) :
    kpOf (handleSetActiveGame sid game r).users = kpOf r.users := by
  unfold handleSetActiveGame
  split
  · rfl
  · cases hf : r.users.find? (fun u => u.socketId == some sid) with
    | none => rfl
    | some user =>
      dsimp only []
      rw [syncWheelTurn_users]
      exact kpOf_updateFirst (fun u => u.socketId == some sid)
        (fun u => { u with currentGame := game }) (fun u => ⟨rfl, rfl⟩) r.users

theorem kpOf_handleDisconnect (sid : String) (r : Room) :
    kpOf (handleDisconnect sid r).users = kpOf r.users := by
  unfold handleDisconnect
  cases hf : r.users.find? (fun u => u.socketId == some sid) with
  | none => rfl
  | some user =>
    dsimp only []
    rw [syncWheelTurn_users, kpOf_syncStatuses]
    exact kpOf_updateFirst (fun u => u.socketId == some sid)
      (fun u => { u with socketId := none }) (fun u => ⟨rfl, rfl⟩) r.users

theorem kpOf_handleSkip (sid w : String) (r : Room) :
    kpOf (handleSkip sid w r).1.users = kpOf r.users := by
  unfold handleSkip
  cases hcw : r.game.currentWord with
  | none => rfl
  | some cw =>
    dsimp only []
    split
    · rfl
    · split
      · rfl
      · exact kpOf_rotateRoles w r

theorem beq_some_some_key (gk : String) (u : User) :
    (some gk == some u.userKey) = (u.userKey == gk) := by
  by_cases h : gk = u.userKey
  · simp [h]
  · have h1 : (some gk == some u.userKey) = false := by
      simp only [beq_eq_false_iff_ne, ne_eq, Option.some.injEq]
      exact h
    have h2 : (u.userKey == gk) = false := by
      simp only [beq_eq_false_iff_ne, ne_eq]
      exact fun hh => h hh.symm
    rw [h1, h2]

theorem find?_updateFirst_other (gk k : String) (hne : k ≠ gk) (l : List User) :
    (updateFirst (fun u => some gk == some u.userKey)
        (fun u => { u with points := u.points + 1 }) l).find?
        (fun u => u.userKey == k) =
      l.find? (fun u => u.userKey == k) := by
  induction l with
  | nil => rfl
  | cons u us ih =>
    by_cases hp : gk = u.userKey
    · have h1 : (some gk == some u.userKey) = true := by simp [hp]
      have h2 : (u.userKey == k) = false := by
        simp only [beq_eq_false_iff_ne, ne_eq]
        intro hh
        exact hne (hh ▸ hp).symm
      simp [updateFirst, h1, List.find?_cons, h2]
    · have h1 : (some gk == some u.userKey) = false := by
        simp only [beq_eq_false_iff_ne, ne_eq, Option.some.injEq]
        exact hp
      rw [updateFirst, if_neg (by simp [h1]), List.find?_cons, List.find?_cons]
      cases hpk : (u.userKey == k) with
      | true => rfl
      | false => exact ih

theorem find?_updateFirst_self (gk : String) (l : List User) :
    ((updateFirst (fun u => some gk == some u.userKey)
        (fun u => { u with points := u.points + 1 }) l).find?
        (fun u => u.userKey == gk)).map User.points =
      ((l.find? (fun u => u.userKey == gk)).map User.points).map (· + 1) := by
  induction l with
  | nil => rfl
  | cons u us ih =>
    by_cases hp : gk = u.userKey
    · have h1 : (some gk == some u.userKey) = true := by simp [hp]
      have h2 : (u.userKey == gk) = true := by simp [hp]
      simp [updateFirst, h1, List.find?_cons, h2]
    · have h1 : (some gk == some u.userKey) = false := by
        simp only [beq_eq_false_iff_ne, ne_eq, Option.some.injEq]
        exact hp
      have h2 : (u.userKey == gk) = false := by
        simp only [beq_eq_false_iff_ne, ne_eq]
        exact fun hh => hp hh.symm
      rw [updateFirst, if_neg (by simp [h1]), List.find?_cons, List.find?_cons, h2]
      exact ih

/-- `GUESS` mismatch branch, made explicit. -/
theorem handleGuess_miss (sid text w : String) (r : Room) (cw : String)
    (hcw : r.game.currentWord = some cw)
    (hroles : ¬ (r.game.drawerUserKey = none ∨ r.game.guesserUserKey = none))
    (hsid : r.game.guesserId = some sid)
    (hmiss : jsTrim (jsToLower text) ≠ jsToLower cw) :
    handleGuess sid text w r =
      if r.game.wrongGuessCount + 1 ≥ MAX_WRONG_GUESSES then
        (rotateRoles w
          { r with game := { r.game with wrongGuessCount := r.game.wrongGuessCount + 1 } },
         GuessEffect.roundSkipped cw)
      else
        ({ r with game := { r.game with wrongGuessCount := r.game.wrongGuessCount + 1 } },
         GuessEffect.wrongGuess (r.game.wrongGuessCount + 1)) := by
  unfold handleGuess
  rw [hcw]
  dsimp only []
  rw [if_neg hroles, if_neg (fun hne => hne hsid), if_pos hmiss]

/-- `GUESS` match branch, made explicit. -/
theorem handleGuess_hit (sid text w : String) (r : Room) (cw : String)
    (hcw : r.game.currentWord = some cw)
    (hroles : ¬ (r.game.drawerUserKey = none ∨ r.game.guesserUserKey = none))
    (hsid : r.game.guesserId = some sid)
    (hhit : jsTrim (jsToLower text) = jsToLower cw)
    (g : User)
    (hg : r.users.find? (fun u => r.game.guesserUserKey == some u.userKey) = some g) :
    handleGuess sid text w r =
      if g.points + 1 ≥ MAX_SCORE then
        ({ r with
            users := (bumpGuesser r).map waitingStatus
            game := { r.game with
              winnerUserKey := some g.userKey, drawerId := none, guesserId := none,
              drawerUserKey := none, guesserUserKey := none, currentWord := none,
              strokes := [], wrongGuessCount := 0 } },
         GuessEffect.gameWinner g.userKey g.name (g.points + 1))
      else
        (rotateRoles w { r with users := bumpGuesser r },
         GuessEffect.roundResult cw g.userKey (g.points + 1)) := by
  unfold handleGuess
  rw [hcw]
  dsimp only []
  rw [if_neg hroles, if_neg (fun hne => hne hsid), if_neg (fun hne => hne hhit), hg]

/-- `SKIP_ROUND` firing branch, made explicit. -/
theorem handleSkip_eq (sid w : String) (r : Room) (cw : String)
    (hcw : r.game.currentWord = some cw)
    (hroles : ¬ (r.game.drawerUserKey = none ∨ r.game.guesserUserKey = none))
    (hsid : r.game.guesserId = some sid) :
    handleSkip sid w r = (rotateRoles w r, some cw) := by
  unfold handleSkip
  rw [hcw]
  dsimp only []
  rw [if_neg hroles, if_neg (fun hne => hne hsid)]

/-- After any `GUESS`, the wrong-guess counter is either untouched
(guards failed), the incremented value reported to the guesser, or 0
(every round boundary: cap-skip, win, or scored rotation). -/
theorem handleGuess_count_cases (sid text w : String) (r : Room) :
    (handleGuess sid text w r).2 = GuessEffect.ignored ∨
    (∃ c, (handleGuess sid text w r).2 = GuessEffect.wrongGuess c) ∨
    (handleGuess sid text w r).1.game.wrongGuessCount = 0 := by
  unfold handleGuess
  cases hcw : r.game.currentWord with
  | none => exact Or.inl rfl
  | some cw =>
    dsimp only []
    split
    · exact Or.inl rfl
    · split
      · exact Or.inl rfl
      · split
        · split
          · exact Or.inr (Or.inr (rotateRoles_wrongGuessCount w _))
          · exact Or.inr (Or.inl ⟨r.game.wrongGuessCount + 1, rfl⟩)
        · cases hg : r.users.find? (fun u => r.game.guesserUserKey == some u.userKey) with
          | none => exact Or.inl rfl
          | some g =>
            dsimp only []
            split
            · exact Or.inr (Or.inr rfl)
            · exact Or.inr (Or.inr (rotateRoles_wrongGuessCount w _))

/-- After any `SKIP_ROUND`, either nothing happened or the counter is 0. -/
theorem handleSkip_count_cases (sid w : String) (r : Room) :
    (handleSkip sid w r).2 = none ∨
    (handleSkip sid w r).1.game.wrongGuessCount = 0 := by
  unfold handleSkip
  cases hcw : r.game.currentWord with
  | none => exact Or.inl rfl
  | some cw =>
    dsimp only []
    split
    · exact Or.inl rfl
    · split
      · exact Or.inl rfl
      · exact Or.inr (rotateRoles_wrongGuessCount w r)

/-! ## C3 -/

/-- C3: a wrong guess increments the counter; exactly when the counter
reaches `MAX_WRONG_GUESSES` (so after 5 consecutive incorrect guesses in
a round, the counter having been reset at the round boundary) the roles
rotate with no score change and the counter resets to 0; below the cap
only the counter changes; and every round boundary (cap-skip, win,
scored rotation, or explicit skip) leaves the counter at 0. -/
theorem C3_wrong_guess_cap (r : Room) (sid text w cw : String)
    (hcw : r.game.currentWord = some cw)
    (hroles : ¬ (r.game.drawerUserKey = none ∨ r.game.guesserUserKey = none))
    (hsid : r.game.guesserId = some sid)
    (hmiss : jsTrim (jsToLower text) ≠ jsToLower cw) :
    (r.game.wrongGuessCount + 1 ≥ MAX_WRONG_GUESSES →
      (handleGuess sid text w r).2 = GuessEffect.roundSkipped cw ∧
      (handleGuess sid text w r).1.game.drawerUserKey = r.game.guesserUserKey ∧
      (handleGuess sid text w r).1.game.guesserUserKey = r.game.drawerUserKey ∧
      (handleGuess sid text w r).1.game.wrongGuessCount = 0 ∧
      kpOf (handleGuess sid text w r).1.users = kpOf r.users) ∧
    (r.game.wrongGuessCount + 1 < MAX_WRONG_GUESSES →
      (handleGuess sid text w r).2 = GuessEffect.wrongGuess (r.game.wrongGuessCount + 1) ∧
      (handleGuess sid text w r).1 =
        { r with game := { r.game with wrongGuessCount := r.game.wrongGuessCount + 1 } }) ∧
    (∀ text' w' cw', (handleGuess sid text' w' r).2 = GuessEffect.roundSkipped cw' →
      (handleGuess sid text' w' r).1.game.wrongGuessCount = 0) ∧
    (∀ text' w' a b c, (handleGuess sid text' w' r).2 = GuessEffect.gameWinner a b c →
      (handleGuess sid text' w' r).1.game.wrongGuessCount = 0) ∧
    (∀ text' w' a b c, (handleGuess sid text' w' r).2 = GuessEffect.roundResult a b c →
      (handleGuess sid text' w' r).1.game.wrongGuessCount = 0) ∧
    (∀ w' cw', (handleSkip sid w' r).2 = some cw' →
      (handleSkip sid w' r).1.game.wrongGuessCount = 0) := by
  refine ⟨?_, ?_, ?_, ?_, ?_, ?_⟩
  · intro hcap
    rw [handleGuess_miss sid text w r cw hcw hroles hsid hmiss, if_pos hcap]
    exact ⟨rfl, rotateRoles_drawerUserKey w _, rotateRoles_guesserUserKey w _,
      rotateRoles_wrongGuessCount w _, kpOf_rotateRoles w _⟩
  · intro hlow
    rw [handleGuess_miss sid text w r cw hcw hroles hsid hmiss,
      if_neg (by omega)]
    exact ⟨rfl, rfl⟩
  · intro text' w' cw' hx
    rcases handleGuess_count_cases sid text' w' r with h | ⟨c, h⟩ | h
    · rw [hx] at h
      exact absurd h (by simp)
    · rw [hx] at h
      exact absurd h (by simp)
    · exact h
  · intro text' w' a b c hx
    rcases handleGuess_count_cases sid text' w' r with h | ⟨c', h⟩ | h
    · rw [hx] at h
      exact absurd h (by simp)
    · rw [hx] at h
      exact absurd h (by simp)
    · exact h
  · intro text' w' a b c hx
    rcases handleGuess_count_cases sid text' w' r with h | ⟨c', h⟩ | h
    · rw [hx] at h
      exact absurd h (by simp)
    · rw [hx] at h
      exact absurd h (by simp)
    · exact h
  · intro w' cw' hx
    rcases handleSkip_count_cases sid w' r with h | h
    · rw [hx] at h
      exact absurd h (by simp)
    · exact h

/-- One wrong guess by Bob. -/
def wrongStep (r : Room) : Room := (handleGuess "sB" "wrong" "next" r).1

/-- `roomPair` after four consecutive wrong guesses by Bob. -/
def roomFour : Room := wrongStep (wrongStep (wrongStep (wrongStep roomPair)))

/-- C3 witness: in the concrete room with four consecutive wrong
guesses, the fifth wrong guess skips the round, rotates roles, keeps all
scores, and resets the counter. -/
theorem C3_wrong_guess_cap_witness :
    roomFour.game.wrongGuessCount = 4 ∧
    (handleGuess "sB" "wrong" "dog" roomFour).2 = GuessEffect.roundSkipped "cat" ∧
    (handleGuess "sB" "wrong" "dog" roomFour).1.game.wrongGuessCount = 0 ∧
    kpOf (handleGuess "sB" "wrong" "dog" roomFour).1.users = kpOf roomFour.users := by
  have h := (C3_wrong_guess_cap roomFour "sB" "wrong" "dog" "cat"
    (by decide) (by decide) (by decide) (by decide)).1 (by decide)
  exact ⟨by decide, h.1, h.2.2.2.1, h.2.2.2.2⟩

/-! ## C4 -/

/-- The specification's comparison: case-insensitive, whitespace-trimmed
exact match (trim and case folding applied to both sides). -/
def specGuessMatch (guess cw : String) : Prop :=
  jsTrim (jsToLower guess) = jsTrim (jsToLower cw)

/-- Bob's member record inside `roomPair` (guesser, connected). -/
def uBobPair : User :=
  { userKey := "B", socketId := some "sB", name := "Bob", color := "blue",
    status := "GUESSING", points := 0, currentGame := "DRAWING" }

/-- C4: a `GUESS` has any effect only when it comes from the connection
bound to the guesser role while a word is active; the guess is judged
correct exactly when the trimmed, lowercased guess equals the lowercased
current word — which coincides with the symmetric case-insensitive,
whitespace-trimmed exact comparison whenever the stored word carries no
surrounding whitespace (true of every word-list entry). -/
theorem C4_guess_auth_and_match :
    (∀ (r : Room) (sid text w : String),
      (handleGuess sid text w r).2 ≠ GuessEffect.ignored →
      r.game.guesserId = some sid ∧ r.game.currentWord ≠ none) ∧
    (∀ (r : Room) (sid text w cw : String) (g : User),
      r.game.currentWord = some cw →
      ¬ (r.game.drawerUserKey = none ∨ r.game.guesserUserKey = none) →
      r.game.guesserId = some sid →
      r.users.find? (fun u => r.game.guesserUserKey == some u.userKey) = some g →
      (((∃ a b c, (handleGuess sid text w r).2 = GuessEffect.gameWinner a b c) ∨
        (∃ a b c, (handleGuess sid text w r).2 = GuessEffect.roundResult a b c)) ↔
        jsTrim (jsToLower text) = jsToLower cw)) ∧
    (∀ text cw : String, jsTrim (jsToLower cw) = jsToLower cw →
      (jsTrim (jsToLower text) = jsToLower cw ↔ specGuessMatch text cw)) := by
  refine ⟨?_, ?_, ?_⟩
  · intro r sid text w
    unfold handleGuess
    cases hcw : r.game.currentWord with
    | none => intro hx; exact absurd rfl hx
    | some cw =>
      dsimp only []
      split
      · intro hx; exact absurd rfl hx
      · split
        case isTrue hsid => intro hx; exact absurd rfl hx
        case isFalse hsid =>
          have hconc : r.game.guesserId = some sid ∧ (some cw : Option String) ≠ none :=
            ⟨not_not.mp hsid, by simp⟩
          split
          · split
            · intro _; exact hconc
            · intro _; exact hconc
          · cases hg : r.users.find? (fun u => r.game.guesserUserKey == some u.userKey) with
            | none => intro hx; exact absurd rfl hx
            | some g =>
              dsimp only []
              split
              · intro _; exact hconc
              · intro _; exact hconc
  · intro r sid text w cw g hcw hroles hsid hg
    constructor
    · intro hx
      by_cases hmatch : jsTrim (jsToLower text) = jsToLower cw
      · exact hmatch
      · exfalso
        rw [handleGuess_miss sid text w r cw hcw hroles hsid hmatch] at hx
        rcases hx with ⟨a, b, c, hx⟩ | ⟨a, b, c, hx⟩ <;>
          (split at hx <;> simp at hx)
    · intro hmatch
      rw [handleGuess_hit sid text w r cw hcw hroles hsid hmatch g hg]
      split
      · exact Or.inl ⟨g.userKey, g.name, g.points + 1, rfl⟩
      · exact Or.inr ⟨cw, g.userKey, g.points + 1, rfl⟩
  · intro text cw hclean
    unfold specGuessMatch
    rw [hclean]

/-- C4 witness: in the live round of `roomPair`, the authorization facts
hold and the padded, differently-cased guess `"  CAT "` is judged a
correct guess of `"cat"`. -/
theorem C4_guess_auth_and_match_witness :
    (roomPair.game.guesserId = some "sB" ∧ roomPair.game.currentWord ≠ none) ∧
    (((∃ a b c, (handleGuess "sB" "  CAT " "dog" roomPair).2 = GuessEffect.gameWinner a b c) ∨
      (∃ a b c, (handleGuess "sB" "  CAT " "dog" roomPair).2 = GuessEffect.roundResult a b c)) ↔
      jsTrim (jsToLower "  CAT ") = jsToLower "cat") ∧
    (jsTrim (jsToLower "  CAT ") = jsToLower "cat" ↔ specGuessMatch "  CAT " "cat") := by
  refine ⟨?_, ?_, ?_⟩
  · exact C4_guess_auth_and_match.1 roomPair "sB" "  CAT " "dog" (by decide)
  · exact C4_guess_auth_and_match.2.1 roomPair "sB" "  CAT " "dog" "cat" uBobPair
      (by decide) (by decide) (by decide) (by decide)
  · exact C4_guess_auth_and_match.2.2 "  CAT " "cat" (by decide)

/-! ## C2 groundwork -/

theorem pointsOf_eq_of_users {r r' : Room} (h : r'.users = r.users) (k : String) :
    pointsOf r' k = pointsOf r k := by
  unfold pointsOf
  rw [h]

theorem kpOf_startRound (w : String) (r : Room) :
    kpOf (startRound w r).users = kpOf r.users := by
  unfold startRound
  cases hfil : r.users.filter (fun u => u.socketId.isSome) with
  | nil => exact kpOf_syncStatuses _
  | cons u1 tl =>
    cases tl with
    | nil => exact kpOf_syncStatuses _
    | cons u2 rest => exact kpOf_syncStatuses _

theorem pointsOf_zeroed (r : Room) (k : String) (p : Nat)
    (hp : pointsOf r k = some p) :
    pointsOf { r with users := r.users.map (fun u => { u with points := 0 }) } k =
      some 0 := by
  obtain ⟨u0, hfind, _⟩ := Option.map_eq_some'.mp hp
  unfold pointsOf
  rw [List.find?_map]
  have hpred : ((fun u : User => u.userKey == k) ∘
      (fun u : User => { u with points := 0 })) = fun u : User => u.userKey == k := rfl
  rw [hpred, hfind]
  rfl

theorem pointsOf_bumpGuesser_self (r : Room) (gk : String)
    (hgk : r.game.guesserUserKey = some gk) :
    ((bumpGuesser r).find? (fun u => u.userKey == gk)).map User.points =
      ((r.users.find? (fun u => u.userKey == gk)).map User.points).map (· + 1) := by
  unfold bumpGuesser
  rw [hgk]
  exact find?_updateFirst_self gk r.users

theorem pointsOf_bumpGuesser_other (r : Room) (gk k : String)
    (hgk : r.game.guesserUserKey = some gk) (hne : k ≠ gk) :
    (bumpGuesser r).find? (fun u => u.userKey == k) =
      r.users.find? (fun u => u.userKey == k) := by
  unfold bumpGuesser
  rw [hgk]
  exact find?_updateFirst_other gk k hne r.users

theorem pointsOf_joinExisting (sid pin name color userKey w k : String)
    (r : Room) (p : Nat) (hp : pointsOf r k = some p) :
    pointsOf (joinExisting sid pin name color userKey w r).1 k = some p := by
  unfold joinExisting
  split
  · exact hp
  · cases hf : r.users.find? (fun u => u.userKey == userKey) with
    | some u0 =>
      dsimp only []
      refine (pointsOf_eq_of_kpOf ?_ k).trans hp
      rw [kpOf_finishJoin]
      exact kpOf_updateFirst (fun u => u.userKey == userKey)
        (fun u =>
          { u with
            socketId := some sid
            currentGame := if u.currentGame = "" then "DRAWING" else u.currentGame })
        (fun u => ⟨rfl, rfl⟩) r.users
    | none =>
      dsimp only []
      split
      · exact hp
      · obtain ⟨u0, hfind, hpts⟩ := Option.map_eq_some'.mp hp
        refine (pointsOf_eq_of_kpOf (kpOf_finishJoin w _) k).trans ?_
        unfold pointsOf
        dsimp only []
        rw [List.find?_append, hfind]
        simp [hpts]

theorem pointsOf_handleRestart (sid w : String) (r : Room) (k : String) (p : Nat)
    (hp : pointsOf r k = some p) :
    pointsOf (handleRestart sid w r) k =
      if (r.users.find? (fun u => u.socketId == some sid)).isSome then some 0
      else some p := by
  unfold handleRestart
  cases hf : r.users.find? (fun u => u.socketId == some sid) with
  | none =>
    simp only [Option.isSome_none, Bool.false_eq_true, if_false]
    exact hp
  | some u0 =>
    simp only [Option.isSome_some, if_true]
    rw [pointsOf_eq_of_users (syncWheelTurn_users _) k,
      pointsOf_eq_of_kpOf (kpOf_startRound w _) k]
    exact pointsOf_zeroed r k p hp

theorem pointsOf_handleGuess (sid text w : String) (r : Room) (k : String) (p : Nat)
    (hp : pointsOf r k = some p) :
    pointsOf (handleGuess sid text w r).1 k = some p ∨
    (pointsOf (handleGuess sid text w r).1 k = some (p + 1) ∧
      r.game.guesserUserKey = some k ∧ r.game.guesserId = some sid ∧
      ∃ cw, r.game.currentWord = some cw ∧ jsTrim (jsToLower text) = jsToLower cw) := by
  unfold handleGuess
  cases hcw : r.game.currentWord with
  | none => exact Or.inl hp
  | some cw =>
    dsimp only []
    split
    · exact Or.inl hp
    case isFalse hroles =>
      split
      case isTrue hsid => exact Or.inl hp
      case isFalse hsid =>
        split
        case isTrue hmiss =>
          split
          · exact Or.inl ((pointsOf_eq_of_kpOf (kpOf_rotateRoles w _) k).trans hp)
          · exact Or.inl hp
        case isFalse hmiss =>
          cases hg : r.users.find? (fun u => r.game.guesserUserKey == some u.userKey) with
          | none => exact Or.inl hp
          | some g =>
            dsimp only []
            have hgkex : ∃ gk, r.game.guesserUserKey = some gk := by
              cases h' : r.game.guesserUserKey with
              | none => exact absurd (Or.inr h') hroles
              | some gk => exact ⟨gk, rfl⟩
            obtain ⟨gk, hgk⟩ := hgkex
            have hbump : pointsOf { r with users := bumpGuesser r } k =
                if k = gk then some (p + 1) else some p := by
              by_cases hk : k = gk
              · subst hk
                rw [if_pos rfl]
                unfold pointsOf
                have := pointsOf_bumpGuesser_self r k hgk
                dsimp only [] at this ⊢
                rw [this]
                unfold pointsOf at hp
                rw [hp]
                rfl
              · rw [if_neg hk]
                unfold pointsOf
                dsimp only []
                rw [pointsOf_bumpGuesser_other r gk k hgk hk]
                exact hp
            split
            · -- win branch
              have hkp : kpOf ((bumpGuesser r).map waitingStatus) =
                  kpOf (bumpGuesser r) := kpOf_map waitingStatus (fun u => ⟨rfl, rfl⟩) _
              have hres : pointsOf ({ r with
                  users := (bumpGuesser r).map waitingStatus } : Room) k =
                  pointsOf { r with users := bumpGuesser r } k :=
                pointsOf_eq_of_kpOf hkp k
              by_cases hk : k = gk
              · refine Or.inr ⟨?_, hk ▸ hgk, not_not.mp hsid, cw, rfl, not_not.mp hmiss⟩
                exact hres.trans (by rw [hbump, if_pos hk])
              · refine Or.inl ?_
                exact hres.trans (by rw [hbump, if_neg hk])
            · -- rotation branch
              have hres : pointsOf (rotateRoles w { r with users := bumpGuesser r }) k =
                  pointsOf { r with users := bumpGuesser r } k :=
                pointsOf_eq_of_kpOf (kpOf_rotateRoles w _) k
              by_cases hk : k = gk
              · refine Or.inr ⟨?_, hk ▸ hgk, not_not.mp hsid, cw, rfl, not_not.mp hmiss⟩
                exact hres.trans (by rw [hbump, if_pos hk])
              · exact Or.inl (hres.trans (by rw [hbump, if_neg hk]))

theorem handleGuess_winner_clears (sid text w : String) (r : Room)
    (uk nm : String) (pts : Nat) :
    (handleGuess sid text w r).2 = GuessEffect.gameWinner uk nm pts →
    MAX_SCORE ≤ pts ∧
    (handleGuess sid text w r).1.game.currentWord = none ∧
    (handleGuess sid text w r).1.game.drawerUserKey = none ∧
    (handleGuess sid text w r).1.game.guesserUserKey = none ∧
    (handleGuess sid text w r).1.game.strokes = [] ∧
    (handleGuess sid text w r).1.game.wrongGuessCount = 0 ∧
    (handleGuess sid text w r).1.game.winnerUserKey = some uk := by
  unfold handleGuess
  cases hcw : r.game.currentWord with
  | none =>
    intro hx
    exact absurd hx (by simp)
  | some cw =>
    dsimp only []
    split
    · intro hx; exact absurd hx (by simp)
    · split
      · intro hx; exact absurd hx (by simp)
      · split
        · split
          · intro hx; exact absurd hx (by simp)
          · intro hx; exact absurd hx (by simp)
        · cases hg : r.users.find? (fun u => r.game.guesserUserKey == some u.userKey) with
          | none => intro hx; exact absurd hx (by simp)
          | some g =>
            dsimp only []
            split
            case isTrue hwin =>
              intro hx
              have hinj : g.userKey = uk ∧ g.name = nm ∧ g.points + 1 = pts := by
                injection hx with h1 h2 h3
                exact ⟨h1, h2, h3⟩
              obtain ⟨h1, h2, h3⟩ := hinj
              exact ⟨h3 ▸ hwin, rfl, rfl, rfl, rfl, rfl, by rw [← h1]⟩
            case isFalse hwin =>
              intro hx
              exact absurd hx (by simp)

/-! ## C2 -/

/-- `roomPair` with Bob already at 3 points. -/
def roomScore3 : Room :=
  { roomPair with users := [uAlicePair, { uBobPair with points := 3 }] }

/-- A post-win room: Bob reached the cap (5), round state cleared,
`winnerUserKey` set, both members still connected. -/
def roomWin : Room :=
  { roomId := "R1", pin := "1234",
    users := [{ uAlicePair with status := "WAITING" },
              { uBobPair with status := "WAITING", points := 5 }],
    game :=
      { drawerId := none, guesserId := none, drawerUserKey := none,
        guesserUserKey := none, currentWord := none, strokes := [],
        winnerUserKey := some "B", wrongGuessCount := 0, wheelTurnUserKey := none,
        wheelOptions := DEFAULT_WHEEL_OPTIONS },
    music :=
      { hostUserKey := none, hostSocketId := none, hostName := none,
        hostDeviceId := none, hasHostSession := false, clientId := "",
        hostSession := none, suggestions := [], queue := [] },
    lobbyNotes := [] }

/-- `roomWin` after Bob merely re-joins from a fresh socket: the
start-game-if-ready branch of `JOIN_ROOM` re-arms a round (no restart,
scores kept). -/
def roomRearm : Room :=
  stepRoom (Event.join "sB2" "1234" "Bob" "blue" "B" "cat") roomWin

/-- C2 counterexample: (1) `RESTART_GAME` *decreases* a member's points
(3 → 0), so points do not only increase; (2) after the cap was reached
(Bob at 5, round state cleared), a mere rejoin re-arms a round and a
further correct guess scores (5 → 6) with no restart in between, so
scoring does not stop until a restart. -/
theorem C2_counterexample :
    pointsOf roomScore3 "B" = some 3 ∧
    pointsOf (stepRoom (Event.restartGame "sA" "dog") roomScore3) "B" = some 0 ∧
    pointsOf roomWin "B" = some 5 ∧
    roomWin.game.currentWord = none ∧
    roomRearm.game.currentWord = some "cat" ∧
    pointsOf (stepRoom (Event.guessWord "sB2" "cat" "dog") roomRearm) "B" = some 6 := by
  decide

/-- C2 amended: a member's points change only as follows — every event
other than `GUESS` and `RESTART_GAME` preserves them; `RESTART_GAME`
from a current member resets them to 0 (a decrease); a `GUESS` either
preserves them or increases them by exactly 1, the latter only for the
member holding the guesser role, from the connection bound to that role,
while a word is active and the trimmed lowercased guess matches; and a
cap-reaching guess immediately clears all round state (word, roles,
strokes, wrong-guess counter) and records the winner.  (Scoring resumes
whenever a new round starts — `RESTART_GAME`, or `JOIN_ROOM`'s
start-if-ready branch, which includes the post-win state.) -/
theorem C2_score_changes (e : Event) (r : Room) (k : String) (p : Nat) :
    ((∀ sid text w, e ≠ Event.guessWord sid text w) →
      (∀ sid w, e ≠ Event.restartGame sid w) →
      pointsOf r k = some p → pointsOf (stepRoom e r) k = some p) ∧
    (∀ sid w, pointsOf r k = some p →
      pointsOf (stepRoom (Event.restartGame sid w) r) k =
        if (r.users.find? (fun u => u.socketId == some sid)).isSome then some 0
        else some p) ∧
    (∀ sid text w, pointsOf r k = some p →
      pointsOf (stepRoom (Event.guessWord sid text w) r) k = some p ∨
      (pointsOf (stepRoom (Event.guessWord sid text w) r) k = some (p + 1) ∧
        r.game.guesserUserKey = some k ∧ r.game.guesserId = some sid ∧
        ∃ cw, r.game.currentWord = some cw ∧
          jsTrim (jsToLower text) = jsToLower cw)) ∧
    (∀ sid text w uk nm pts,
      (handleGuess sid text w r).2 = GuessEffect.gameWinner uk nm pts →
      MAX_SCORE ≤ pts ∧
      (handleGuess sid text w r).1.game.currentWord = none ∧
      (handleGuess sid text w r).1.game.drawerUserKey = none ∧
      (handleGuess sid text w r).1.game.guesserUserKey = none ∧
      (handleGuess sid text w r).1.game.strokes = [] ∧
      (handleGuess sid text w r).1.game.wrongGuessCount = 0 ∧
      (handleGuess sid text w r).1.game.winnerUserKey = some uk) := by
  refine ⟨?_, ?_, ?_, ?_⟩
  · intro hng hnr hp
    cases e with
    | join sid pin name color userKey w =>
      exact pointsOf_joinExisting sid pin name color userKey w k r p hp
    | draw sid stroke =>
      exact (pointsOf_eq_of_users (users_handleDraw sid stroke r) k).trans hp
    | clearCanvas sid =>
      exact (pointsOf_eq_of_users (users_handleClearCanvas sid r) k).trans hp
    | guessWord sid text w => exact absurd rfl (hng sid text w)
    | skipRound sid w =>
      exact (pointsOf_eq_of_kpOf (kpOf_handleSkip sid w r) k).trans hp
    | restartGame sid w => exact absurd rfl (hnr sid w)
    | setActiveGame sid game =>
      exact (pointsOf_eq_of_kpOf (kpOf_handleSetActiveGame sid game r) k).trans hp
    | claimHost sid =>
      exact (pointsOf_eq_of_users (users_handleClaimHost sid r) k).trans hp
    | releaseHost sid =>
      exact (pointsOf_eq_of_users (users_handleReleaseHost sid r) k).trans hp
    | suggestTrack sid t newId now =>
      exact (pointsOf_eq_of_users (users_handleSuggestTrack sid t newId now r) k).trans hp
    | acceptSuggestion sid sugId newId now =>
      exact (pointsOf_eq_of_users (users_handleAcceptSuggestion sid sugId newId now r) k).trans hp
    | rejectSuggestion sid sugId =>
      exact (pointsOf_eq_of_users (users_handleRejectSuggestion sid sugId r) k).trans hp
    | addToQueue sid t newId now =>
      exact (pointsOf_eq_of_users (users_handleAddToQueue sid t newId now r) k).trans hp
    | hostSessionUpdate sid clientId session =>
      exact (pointsOf_eq_of_users (users_handleHostSessionUpdate sid clientId session r) k).trans hp
    | hostDeviceUpdate sid deviceId =>
      exact (pointsOf_eq_of_users (users_handleHostDeviceUpdate sid deviceId r) k).trans hp
    | musicControl sid a o =>
      exact (pointsOf_eq_of_users (users_handleMusicControl sid a o r) k).trans hp
    | setWheelOptions sid options =>
      exact (pointsOf_eq_of_users (users_handleSetWheelOptions sid options r) k).trans hp
    | addLobbyNote sid text newId now =>
      exact (pointsOf_eq_of_users (users_handleAddLobbyNote sid text newId now r) k).trans hp
    | deleteLobbyNote sid noteId =>
      exact (pointsOf_eq_of_users (users_handleDeleteLobbyNote sid noteId r) k).trans hp
    | spinWheel sid idx =>
      exact (pointsOf_eq_of_users (users_handleSpinWheel sid idx r) k).trans hp
    | disconnect sid =>
      exact (pointsOf_eq_of_kpOf (kpOf_handleDisconnect sid r) k).trans hp
  · intro sid w hp
    exact pointsOf_handleRestart sid w r k p hp
  · intro sid text w hp
    exact pointsOf_handleGuess sid text w r k p hp
  · intro sid text w uk nm pts hx
    exact handleGuess_winner_clears sid text w r uk nm pts hx

/-- C2 amended witness: concrete instances — a `DRAW` leaves Bob's score
unchanged, a restart zeroes the 3 points, Bob's correct guess in the
live `roomPair` round behaves per the characterization, and the concrete
cap-reaching guess in `roomRearm` clears all round state. -/
theorem C2_score_changes_witness :
    pointsOf (stepRoom (Event.draw "sA" "seg") roomPair) "B" = some 0 ∧
    pointsOf (stepRoom (Event.restartGame "sA" "dog") roomScore3) "B" = some 0 ∧
    (pointsOf (stepRoom (Event.guessWord "sB" "cat" "dog") roomPair) "B" = some 0 ∨
      (pointsOf (stepRoom (Event.guessWord "sB" "cat" "dog") roomPair) "B" = some 1 ∧
        roomPair.game.guesserUserKey = some "B" ∧
        roomPair.game.guesserId = some "sB" ∧
        ∃ cw, roomPair.game.currentWord = some cw ∧
          jsTrim (jsToLower "cat") = jsToLower cw)) ∧
    ((handleGuess "sB2" "cat" "dog" roomRearm).1.game.currentWord = none ∧
      (handleGuess "sB2" "cat" "dog" roomRearm).1.game.drawerUserKey = none ∧
      (handleGuess "sB2" "cat" "dog" roomRearm).1.game.winnerUserKey = some "B") := by
  refine ⟨?_, ?_, ?_, ?_⟩
  · exact (C2_score_changes (Event.draw "sA" "seg") roomPair "B" 0).1
      (fun sid text w h => Event.noConfusion h)
      (fun sid w h => Event.noConfusion h) (by decide)
  · exact ((C2_score_changes (Event.restartGame "sA" "dog") roomScore3 "B" 3).2.1
      "sA" "dog" (by decide)).trans (by decide)
  · exact (C2_score_changes (Event.guessWord "sB" "cat" "dog") roomPair "B" 0).2.2.1
      "sB" "cat" "dog" (by decide)
  · have h := (C2_score_changes (Event.guessWord "sB2" "cat" "dog") roomRearm "B" 5).2.2.2
      "sB2" "cat" "dog" "B" "Bob" 6 (by decide)
    exact ⟨h.2.1, h.2.2.1, h.2.2.2.2.2.2⟩

end Duo
